import Mathlib

set_option maxRecDepth 8000

/-!
Shallow embedding of the CUL RF receiver core (`src/CUL/clib/rf_receive.c`) —
the pulse demodulator and multi-protocol frame decoder of the culfw firmware.

Machine integers are modelled as `Nat` (with explicit `% 256` / `% 65536` /
`% 2^32` where C unsigned overflow matters) and `Int` where C performs the
usual promotion of `uint8_t` operands to `int` (e.g. the bit-count expression
`b->byteidx*8 + (7-b->bitidx)` and the differences inside `wave_equals`).
Byte arrays are modelled as total functions `Nat → Nat`; array stores become
functional updates.

Build configuration modelled: HAS_IT, HAS_TCM97001, HAS_REVOLT, HAS_ESA,
HAS_TX3 and HAS_HOERMANN defined; LONG_PULSE, HAS_RF_ROUTER, GIRA_MODE not
defined (the `#ifdef`-default, full-featured decoder set described by the
spec's dispatch list).
-/

/-- Modelled from the spec: `MAXMSG` (the size of a bucket's `data[]` array) is
defined in `board.h`, which is not among the sources; the spec gives no concrete
value.  The claims below do not depend on the specific value, only on the code's
comparisons against it. -/
def MAXMSG : Nat := 12

/-- Modelled from the spec: `RCV_BUCKETS` is defined in `board.h` (not among the
sources); the spec says "Fixed capacity `RCV_BUCKETS` (small, e.g. 4)". -/
def RCV_BUCKETS : Nat := 4

/-- Modelled from the spec: `REPTIME` is defined in `rf_receive.h` (not among
the sources); the spec gives "`REPTIME` ≈ 38 ticks ... (≈ 0.3 s)", matching the
source comment "38/125 = 0.3 sec". -/
def REPTIME : Nat := 38

/-- Constant TDIFF, `TSCALE(200) = 200/16`: tolerated diff to previous/avg high/low/total. -/
def TDIFF : Nat := 12

/-- Constant TDIFFIT, `TSCALE(350) = 350/16`: wider tolerance used for the IT protocol. -/
def TDIFFIT : Nat := 21

def STATE_RESET : Nat := 0
def STATE_INIT : Nat := 1
def STATE_SYNC : Nat := 2
def STATE_COLLECT : Nat := 3
def STATE_HMS : Nat := 4
def STATE_ESA : Nat := 5
def STATE_REVOLT : Nat := 6
def STATE_IT : Nat := 7
def STATE_TCM97001 : Nat := 8
def STATE_ITV3 : Nat := 9

/-- Modelled from the spec: the `TYPE_*` single-byte ASCII type tags are defined
in `rf_receive.h`/`display` headers (not among the sources).  §6 of the spec
gives `F` for FS20, `T` for FHT, `E` for EM, `H` for HMS, `K` for KS300, `i` for
IT "etc.".  The claims below depend only on the tags being nonzero and pairwise
distinct. -/
def TYPE_EM : Nat := 69        -- ASCII E
def TYPE_FS20 : Nat := 70      -- ASCII F
def TYPE_HMS : Nat := 72       -- ASCII H
def TYPE_KS300 : Nat := 75     -- ASCII K
def TYPE_HRM : Nat := 82       -- ASCII R
def TYPE_ESA : Nat := 83       -- ASCII S
def TYPE_FHT : Nat := 84       -- ASCII T
def TYPE_IT : Nat := 105       -- ASCII i
def TYPE_REVOLT : Nat := 114   -- ASCII r
def TYPE_TCM97001 : Nat := 115 -- ASCII s
def TYPE_TX3 : Nat := 116     -- ASCII t

/-- Modelled from the spec: the `tx_report` bit masks are defined in a header
that is not among the sources; §6 enumerates the bits.  Concrete mask values are
immaterial beyond being distinct single bits. -/
def REP_KNOWN : Nat := 1
def REP_REPEATED : Nat := 2
def REP_BITS : Nat := 4
def REP_MONITOR : Nat := 8
def REP_BINTIME : Nat := 16
def REP_RSSI : Nat := 32
def REP_FHTPROTO : Nat := 64
def REP_LCDMON : Nat := 128

/-- Modelled from the spec: FHT control-byte constants come from `fht.h` (not
among the sources).  The spec names `ACK`, `ACK2`, `CAN_XMIT`, `CAN_RCV`,
`START_XMIT`, `END_XMIT`; the concrete values are immaterial to the claims. -/
def FHT_ACK : Nat := 0x4B
def FHT_ACK2 : Nat := 0x69
def FHT_CAN_XMIT : Nat := 0x53
def FHT_CAN_RCV : Nat := 0x54
def FHT_START_XMIT : Nat := 0x55
def FHT_END_XMIT : Nat := 0x56

/-- Functional array store: `updf d i v` is the array `d` with `d[i] = v`. -/
def updf (d : Nat → Nat) (i v : Nat) : Nat → Nat :=
  fun j => if j = i then v else d j

/-- Modelled from the spec / avr-libc: `parity_even_bit` from `util/parity.h`
(not among the sources) returns the even-parity bit of a byte: `1` iff the byte
has an odd number of set bits. -/
def parity_even_bit (v : Nat) : Nat :=
  ((List.range 8).foldl (fun a i => a + (if v.testBit i then 1 else 0)) 0) % 2

/-- Unsigned 32-bit (`uint32_t`) subtraction `a - b` (used for the `ticks - reptime` window). -/
def sub32 (a b : Nat) : Nat := (a + 2 ^ 32 - b % 2 ^ 32) % 2 ^ 32

/-- Struct `wave_t`: one bit cell's shape (scaled high/low durations). -/
structure wave_t where
  hightime : Nat
  lowtime : Nat
deriving DecidableEq

/-- Struct `bucket_t`: one in-progress frame.  `data` is the MSB-first bit buffer. -/
structure bucket_t where
  state : Nat
  byteidx : Nat
  sync : Nat
  bitidx : Nat
  data : Nat → Nat
  zero : wave_t
  one : wave_t

/-- The C expression `b->byteidx*8 + (7-b->bitidx)` (uint8 operands promoted to
`int`): total number of bits written to the bucket. -/
def bitcntI (b : bucket_t) : Int :=
  (b.byteidx : Int) * 8 + (7 - (b.bitidx : Int))

/-- Struct `input_t`: the cursor-threaded bit-stream reader of the decoders. -/
@[ext] structure input_t where
  data : Nat → Nat
  byte : Nat
  bit : Nat

/-- Function `getbit`: read one bit (MSB-first within each byte) and advance the cursor.
`if(in->bit-- == 0) { in->byte++; in->bit=7; }`. -/
def getbit (inp : input_t) : Nat × input_t :=
  let b := if (inp.data inp.byte).testBit inp.bit then 1 else 0
  if inp.bit = 0 then (b, { inp with byte := inp.byte + 1, bit := 7 })
  else (b, { inp with bit := inp.bit - 1 })

/-- Function `getbits`: read `nbits` bits; bit `i` is stored at position `nbits-i-1`
(when `msb` is 1) or `i` (when `msb` is 0) of the result. -/
def getbits (inp : input_t) (nbits msb : Nat) : Nat × input_t :=
  (List.range nbits).foldl
    (fun ri i =>
      let bi := getbit ri.2
      if bi.1 = 1 then (ri.1 ||| (1 <<< (if msb = 1 then nbits - i - 1 else i)), bi.2)
      else (ri.1, bi.2))
    (0, inp)

/-- The reader cursor positioned at absolute bit offset `p` of data `d`. -/
def cursorAt (d : Nat → Nat) (p : Nat) : input_t :=
  ⟨d, p / 8, 7 - p % 8⟩

/-- The bit that `getbit` yields at absolute bit offset `p`: bit `7 - p % 8` of
byte `p / 8` (the bucket's bit stream, MSB-first within each byte). -/
def streamBit (d : Nat → Nat) (p : Nat) : Nat :=
  if (d (p / 8)).testBit (7 - p % 8) then 1 else 0

/-- Position-indexed description of what `getbits` assembles starting at
absolute bit offset `p`: stream bit `p+i` lands at position `nbits-i-1`
(`msb = 1`, first-read bit most significant) or at position `i` (`msb = 0`,
first-read bit least significant). -/
def assembleBits (d : Nat → Nat) (p nbits msb : Nat) : Nat :=
  (List.range nbits).foldl
    (fun a i =>
      if streamBit d (p + i) = 1 then a ||| (1 <<< (if msb = 1 then nbits - i - 1 else i))
      else a)
    0

/-- Function `addbit`: append a bit at the write cursor.  Returns the updated bucket and
a flag telling whether the overflow branch ran: in that branch the C code calls
`reset_input()` — which resets `bucket_array[bucket_in]` (the *receiving*
bucket, not necessarily `b`) — and leaves `b`'s fields untouched; the caller
models the `reset_input` effect where the aliasing is known. -/
def addbit (b : bucket_t) (bit : Nat) : bucket_t × Bool :=
  if MAXMSG ≤ b.byteidx then (b, true)
  else
    let data1 := if bit ≠ 0 then updf b.data b.byteidx ((b.data b.byteidx) ||| (1 <<< b.bitidx))
                 else b.data
    if b.bitidx = 0 then
      ({ b with data := updf data1 (b.byteidx + 1) 0, byteidx := b.byteidx + 1, bitidx := 7 },
       false)
    else
      ({ b with data := data1, bitidx := b.bitidx - 1 }, false)

/-- The `data[]` indices that `addbit` stores to (the bit-OR store at
`data[byteidx]` when the bit is set, and the zero-initialisation of
`data[++byteidx]` when `bitidx` wraps). -/
def addbit_writes (b : bucket_t) (bit : Nat) : List Nat :=
  if MAXMSG ≤ b.byteidx then []
  else (if bit ≠ 0 then [b.byteidx] else []) ++ (if b.bitidx = 0 then [b.byteidx + 1] else [])

/-- Function `delbit`: move the write cursor back one bit.
`if(b->bitidx++ == 7) { b->bitidx = 0; b->byteidx--; }` (uint8 `byteidx--`). -/
def delbit (b : bucket_t) : bucket_t :=
  if b.bitidx = 7 then { b with bitidx := 0, byteidx := (b.byteidx + 255) % 256 }
  else { b with bitidx := b.bitidx + 1 }

/-- Function `wave_equals`: match a pulse pair against a stored template within
`±TDIFF` (`±TDIFFIT` in state IT) on high, low and their sum.  The differences
are `int16_t`; with 8-bit times they never truncate, so `Int` is exact. -/
def wave_equals (a : wave_t) (htime ltime state : Nat) : Nat :=
  let tdiffVal : Int := if state = STATE_IT then TDIFFIT else TDIFF
  let dlow : Int := (a.lowtime : Int) - (ltime : Int)
  let dhigh : Int := (a.hightime : Int) - (htime : Int)
  let dcomplete : Int := ((a.lowtime : Int) + (a.hightime : Int)) - ((ltime : Int) + (htime : Int))
  if dlow < tdiffVal ∧ -tdiffVal < dlow ∧ dhigh < tdiffVal ∧ -tdiffVal < dhigh ∧
     dcomplete < tdiffVal ∧ -tdiffVal < dcomplete then 1 else 0

/-- Function `cksum1` (FS20/FHT): `s += buf[--len]` down to 0, uint8. -/
def cksum1 (s : Nat) (buf : Nat → Nat) : Nat → Nat
  | 0 => s % 256
  | len + 1 => cksum1 ((s + buf len) % 256) buf len

/-- Function `cksum2` (EM): XOR of `buf[0..len-1]`. -/
def cksum2 (buf : Nat → Nat) : Nat → Nat
  | 0 => 0
  | len + 1 => cksum2 buf len ^^^ buf len

/-- Inner loop of `cksum3`: processes `buf[len-1]` down to `buf[0]`, carrying
`x` (XOR of nibbles), `y` (sum of nibbles, uint8) and the iteration count
`cnt` (`cnt` only matters as "is this the first iteration", i.e. `cnt = 0`;
the uint8 wrap of `cnt` is unreachable for the message lengths involved). -/
def cksum3Loop (buf : Nat → Nat) (nibble : Nat) : Nat → Nat → Nat → Nat → Nat × Nat
  | 0, x, y, _cnt => (x, y)
  | len + 1, x, y, cnt =>
    let d := buf len
    let x1 := x ^^^ (d >>> 4)
    let y1 := (y + (d >>> 4)) % 256
    let x2 := if nibble = 0 ∨ cnt ≠ 0 then x1 ^^^ (d &&& 0xf) else x1
    let y2 := if nibble = 0 ∨ cnt ≠ 0 then (y1 + (d &&& 0xf)) % 256 else y1
    cksum3Loop buf nibble len x2 y2 (cnt + 1)

/-- Function `cksum3` (KS300): XOR-of-nibbles and additive-of-nibbles packed into one
byte; the global `nibble` flag suppresses the low nibble of the last byte. -/
def cksum3 (buf : Nat → Nat) (len nibble : Nat) : Nat :=
  let xy := cksum3Loop buf nibble len 0 5 0
  let y := (xy.2 + xy.1) % 256
  ((y <<< 4) ||| xy.1) % 256

/-- Loop state of the generic `analyze` routine: input cursor `iby`/`ibi`,
output cursor `oby`/`obi` (the C `obi` is `int8_t` and reaches `-1`), the
output buffer and the KS300 `nibble` flag. -/
structure AState where
  iby : Nat
  ibi : Nat
  obi : Int
  oby : Nat
  obuf : Nat → Nat
  nibble : Nat

/-- Tail of one `analyze` loop iteration, after the KS300 nibble handling:
the `obi == -1` next-byte checks (FS20 parity / EM+KS300 stop bit) and the
normal-bit stores. -/
def analyzeTail (t : Nat) (st : AState) (bit : Nat) : Option AState :=
  if st.obi = -1 then
    if t = TYPE_FS20 ∧ parity_even_bit (st.obuf st.oby) ≠ bit then none
    else if (t = TYPE_EM ∨ t = TYPE_KS300) ∧ bit = 0 then none
    else some { st with oby := st.oby + 1, obuf := updf st.obuf (st.oby + 1) 0, obi := 7 }
  else
    let obuf1 :=
      if bit = 1 then
        if t = TYPE_FS20 then updf st.obuf st.oby (st.obuf st.oby ||| (1 <<< st.obi.toNat))
        else if t = TYPE_EM ∨ t = TYPE_KS300 then
          updf st.obuf st.oby (st.obuf st.oby ||| (1 <<< (7 - st.obi).toNat))
        else st.obuf
      else st.obuf
    some { st with obuf := obuf1, obi := st.obi - 1 }

/-- One iteration of the `analyze` while-loop: fetch the input bit, advance the
input cursor, run the KS300 nibble check (`continue` drops the bit), then the
tail; `none` models the early `return 0`. -/
def analyzeStep (t : Nat) (b : bucket_t) (st : AState) : Option AState :=
  let bit := if (b.data st.iby).testBit st.ibi then 1 else 0
  let st1 := if st.ibi = 0 then { st with iby := st.iby + 1, ibi := 7 }
             else { st with ibi := st.ibi - 1 }
  if t = TYPE_KS300 ∧ st1.obi = 3 then
    if st1.nibble = 0 then
      (if bit = 0 then none else some { st1 with nibble := 1 })
    else analyzeTail t { st1 with nibble := 0 } bit
  else analyzeTail t st1 bit

/-- Function `analyze` (FS20/EM/KS300 demultiplexer): runs the loop over the
`max = byteidx*8 + (7-bitidx)` input bits (`max` is `uint8_t`, hence the
`mod 256`), then the post-loop `oby` adjustments.  Returns `(oby, obuf,
nibble)` on success.  The global `obuf` cells are zeroed before use
(`obuf[0] = 0` and `obuf[++oby] = 0`), so the stale global contents are
modelled as zeros. -/
def analyze (b : bucket_t) (t : Nat) : Option (Nat × (Nat → Nat) × Nat) :=
  let max := ((bitcntI b).emod 256).toNat
  let st0 : AState := ⟨0, 7, 7, 0, updf (fun _ => 0) 0 0, 0⟩
  match (List.range max).foldl (fun acc _ => acc.bind (analyzeStep t b)) (some st0) with
  | none => none
  | some st =>
    let oby := if t = TYPE_EM ∧ st.obi = -1 then st.oby + 1
               else if st.nibble ≠ 0 then st.oby + 1
               else st.oby
    if oby = 0 then none else some (oby, st.obuf, st.nibble)

/-- One iteration of the `analyze_hms` payload loop (loop variable `oby`):
read a byte LSB-first (`getbits(&in, 8, 0)`), check its even-parity bit, fail
on a set next bit, accumulate the XOR `crc`. -/
def hmsStep (oby : Nat) (s : (Nat → Nat) × Nat × input_t) : Option ((Nat → Nat) × Nat × input_t) :=
  let g := getbits s.2.2 8 0
  let obuf1 := updf s.1 oby g.1
  let pb := getbit g.2
  if parity_even_bit g.1 ≠ pb.1 then none
  else
    let sb := getbit pb.2
    if sb.1 = 1 then none
    else some (obuf1, s.2.1 ^^^ g.1, sb.2)

/-- Function `analyze_hms`: needs at least 69 bits; 6 payload bytes (LSB-first
assembly), each followed by a verified even-parity bit and a bit that must be
clear, then a CRC byte with verified parity that must equal the XOR of the
payload bytes.  Returns `(obuf, oby)` on success. -/
def analyze_hms (b : bucket_t) : Option ((Nat → Nat) × Nat) :=
  if bitcntI b < 69 then none
  else
    match (List.range 6).foldl (fun acc oby => acc.bind (hmsStep oby))
        (some (((fun _ => 0), 0, ⟨b.data, 0, 7⟩) : (Nat → Nat) × Nat × input_t)) with
    | none => none
    | some s =>
      let g := getbits s.2.2 8 0
      let pb := getbit g.2
      if parity_even_bit g.1 ≠ pb.1 then none
      else if s.2.1 ≠ g.1 then none
      else some (s.1, 6)

/-- Constants `ESA_BITLEN`, `ESA_DATALEN`, `ESA_CRC` for the `#ifdef`-default (non-GIRA)
build: 144 bits, 15 payload bytes, constant `0xf00f`.  (`GIRA_MODE` would give
160/17/0xee11; it needs `board.h`, which is not among the sources.) -/
def ESA_BITLEN : Nat := 144
def ESA_DATALEN : Nat := 15
def ESA_CRC : Nat := 0xf00f

/-- The `analyze_esa` payload loop: for each byte (MSB-first) accumulate the
additive `crc` (uint16), output `byte XOR salt`, update `salt = byte + 0x24`
(uint8).  State `(inp, salt, crc, obuf, oby)`, recursing on the remaining
count. -/
def esaLoop : Nat → input_t → Nat → Nat → (Nat → Nat) → Nat →
    input_t × Nat × Nat × (Nat → Nat) × Nat
  | 0, inp, salt, crc, obuf, oby => (inp, salt, crc, obuf, oby)
  | n + 1, inp, salt, crc, obuf, oby =>
    let g := getbits inp 8 1
    let crc1 := (crc + g.1) % 65536
    let obuf1 := updf obuf oby (g.1 ^^^ salt)
    let salt1 := (g.1 + 0x24) % 256
    esaLoop n g.2 salt1 crc1 obuf1 (oby + 1)

/-- Function `analyze_esa`: state must be ESA and the bucket must hold exactly
`ESA_BITLEN` bits; descramble `ESA_DATALEN` bytes, read one further byte
(output XOR 0xFF), then subtract the closing two bytes (big-endian) from the
additive `crc`; valid iff the final `crc` is zero. -/
def analyze_esa (b : bucket_t) : Option ((Nat → Nat) × Nat) :=
  if b.state ≠ STATE_ESA then none
  else if bitcntI b ≠ (ESA_BITLEN : Int) then none
  else
    let r := esaLoop ESA_DATALEN ⟨b.data, 0, 7⟩ 0x89 ESA_CRC (fun _ => 0) 0
    let g := getbits r.1 8 1
    let crc1 := (r.2.2.1 + g.1) % 65536
    let obuf1 := updf r.2.2.2.1 r.2.2.2.2 (g.1 ^^^ 0xff)
    let oby1 := r.2.2.2.2 + 1
    let g2 := getbits g.2 8 1
    let crc2 := (crc1 + 65536 - (g2.1 <<< 8)) % 65536
    let g3 := getbits g2.2 8 1
    let crc3 := (crc2 + 65536 - g3.1) % 65536
    if crc3 ≠ 0 then none else some (obuf1, oby1)

/-- One iteration of the `analyze_TX3` loop (loop variable `oby`): the first
byte is `0x80 | getbits(7 bits)`, later bytes are full 8-bit reads; the nibble
sum `crc` is uint8. -/
def tx3Step (oby : Nat) (s : input_t × Nat × (Nat → Nat)) : input_t × Nat × (Nat → Nat) :=
  let n := if oby = 0 then
             let g := getbits s.1 7 1
             (0x80 ||| g.1, g.2)
           else
             let g := getbits s.1 8 1
             (g.1, g.2)
  ((n.2 : input_t), (s.2.1 + (n.1 >>> 4) + (n.1 &&& 0xf)) % 256, updf s.2.2 oby n.1)

/-- Function `analyze_TX3`: needs `byteidx == 4 && bitidx == 1`; 4 bytes via the loop,
then a trailing 7-bit read shifted left once; the masked nibble sum and the
`0xA` high-nibble check gate success.  Returns `(obuf, oby)`. -/
def analyze_TX3 (b : bucket_t) : Option ((Nat → Nat) × Nat) :=
  if b.byteidx ≠ 4 ∨ b.bitidx ≠ 1 then none
  else
    let s := (List.range 4).foldl (fun s oby => tx3Step oby s)
               ((⟨b.data, 0, 7⟩ : input_t), 0, (fun _ => 0))
    let g := getbits s.1 7 1
    let last := g.1 <<< 1
    let obuf1 := updf s.2.2 4 last
    let crc1 := (s.2.1 + (last >>> 4)) &&& 0xF
    if (crc1 >>> 4) ≠ 0 ∨ (obuf1 0 >>> 4) ≠ 0xA then none
    else some (obuf1, 5)

/-- Function `analyze_it`: shape-only check (state IT with 3 full bytes, or state ITV3
with 8 full bytes); copies `data[0..byteidx)` to the output. -/
def analyze_it (b : bucket_t) : Option ((Nat → Nat) × Nat) :=
  if (b.state ≠ STATE_IT ∨ b.byteidx ≠ 3 ∨ b.bitidx ≠ 7) ∧
     (b.state ≠ STATE_ITV3 ∨ b.byteidx ≠ 8 ∨ b.bitidx ≠ 7) then none
  else some ((fun i => if i < b.byteidx then b.data i else 0), b.byteidx)

/-- Function `analyze_tcm97001`: shape-only check (state TCM97001, 3 full bytes);
copies `data[0..byteidx)` to the output. -/
def analyze_tcm97001 (b : bucket_t) : Option ((Nat → Nat) × Nat) :=
  if b.byteidx ≠ 3 ∨ b.bitidx ≠ 7 ∨ b.state ≠ STATE_TCM97001 then none
  else some ((fun i => if i < b.byteidx then b.data i else 0), b.byteidx)

/-- Function `analyze_revolt`: state REVOLT with 12 full bytes; byte 11 must equal the
uint8 sum of bytes 0..10, which are copied to the output. -/
def analyze_revolt (b : bucket_t) : Option ((Nat → Nat) × Nat) :=
  if b.byteidx ≠ 12 ∨ b.state ≠ STATE_REVOLT ∨ b.bitidx ≠ 0 then none
  else
    let sum := (List.range 11).foldl (fun s i => (s + b.data i) % 256) 0
    if sum ≠ b.data 11 then none
    else some ((fun i => if i < 11 then b.data i else 0), 11)

/-- IT stage of `RfAnalyze_Task`: the state gate around `analyze_it` plus the
call itself; yields `TYPE_IT` or 0. -/
def it_tag (b : bucket_t) : Nat :=
  if (b.state = STATE_IT ∨ b.state = STATE_ITV3) ∧ (analyze_it b).isSome then TYPE_IT else 0

/-- TCM97001 stage: `analyze_tcm97001`. -/
def tcm97001_tag (b : bucket_t) : Nat :=
  if (analyze_tcm97001 b).isSome then TYPE_TCM97001 else 0

/-- Revolt stage: `analyze_revolt`. -/
def revolt_tag (b : bucket_t) : Nat :=
  if (analyze_revolt b).isSome then TYPE_REVOLT else 0

/-- ESA stage: `analyze_esa`. -/
def esa_tag (b : bucket_t) : Nat :=
  if (analyze_esa b).isSome then TYPE_ESA else 0

/-- FS20/FHT stage: `analyze(b, TYPE_FS20)`, split off the trailing checksum
byte, then try the FS20 sum (seed 6), the FS20 repeater sum (+1, in C an `int`
comparison, so no uint8 wrap) and the FHT sum (seed 12); otherwise the stage
leaves `datatype` 0. -/
def fs20fht_tag (b : bucket_t) : Nat :=
  match analyze b TYPE_FS20 with
  | none => 0
  | some (oby0, obuf, _) =>
    let oby := oby0 - 1
    let fs_csum := cksum1 6 obuf oby
    if fs_csum = obuf oby ∧ 4 ≤ oby then TYPE_FS20
    else if fs_csum + 1 = obuf oby ∧ 4 ≤ oby then TYPE_FS20
    else if cksum1 12 obuf oby = obuf oby ∧ 4 ≤ oby then TYPE_FHT
    else 0

/-- EM stage: `analyze(b, TYPE_EM)`, split off the checksum byte, require 9
payload bytes and the XOR checksum. -/
def em_tag (b : bucket_t) : Nat :=
  match analyze b TYPE_EM with
  | none => 0
  | some (oby0, obuf, _) =>
    let oby := oby0 - 1
    if oby = 9 ∧ cksum2 obuf oby = obuf oby then TYPE_EM else 0

/-- HMS stage: `analyze_hms`. -/
def hms_tag (b : bucket_t) : Nat :=
  if (analyze_hms b).isSome then TYPE_HMS else 0

/-- TX3 stage: `analyze_TX3`. -/
def tx3_tag (b : bucket_t) : Nat :=
  if (analyze_TX3 b).isSome then TYPE_TX3 else 0

/-- The speculative last bit appended before the KS300 attempt:
`addbit(b, wave_equals(&b->one, hightime, b->one.lowtime, b->state))`. -/
def ks300TryBucket (b : bucket_t) (hightime : Nat) : bucket_t :=
  (addbit b (wave_equals b.one hightime b.one.lowtime b.state)).1

/-- KS300 stage: `analyze(·, TYPE_KS300)` on the bucket with the speculative
bit, split off the checksum, and compare `cksum3` against `obuf[oby-nibble]`. -/
def ks300_tag (b : bucket_t) (hightime : Nat) : Nat :=
  match analyze (ks300TryBucket b hightime) TYPE_KS300 with
  | none => 0
  | some (oby0, obuf, nibble) =>
    let oby := oby0 - 1
    if cksum3 obuf oby nibble = obuf (oby - nibble) then TYPE_KS300 else 0

/-- The bucket after the KS300 attempt: the speculative bit is kept on success
and `delbit` retracts the cursor on failure. -/
def afterKS300 (b : bucket_t) (hightime : Nat) : bucket_t :=
  if ks300_tag b hightime = 0 then delbit (ks300TryBucket b hightime)
  else ks300TryBucket b hightime

/-- Hoermann shape precondition: `byteidx == 4 && bitidx == 4` and the zero
template matches `(TSCALE(960), TSCALE(480)) = (60, 30)`. -/
def hoermann_cond (b : bucket_t) : Prop :=
  b.byteidx = 4 ∧ b.bitidx = 4 ∧ wave_equals b.zero 60 30 b.state = 1

instance (b : bucket_t) : Decidable (hoermann_cond b) := by
  unfold hoermann_cond; infer_instance

/-- Hoermann stage, evaluated (as in the task) on the bucket left behind by
the KS300 attempt. -/
def hoermann_tag (b : bucket_t) (hightime : Nat) : Nat :=
  if hoermann_cond (afterKS300 b hightime) then TYPE_HRM else 0

/-- The decoder-dispatch portion of `RfAnalyze_Task` on the tail bucket: each
stage runs under a `!datatype` guard, so the first success fixes `datatype`;
the KS300 stage mutates the bucket (speculative bit, retracted via `delbit` on
failure) and a successful Hoermann appends its own final bit.  Returns the
`datatype` and the bucket as left behind. -/
def rfDispatch (b : bucket_t) (hightime : Nat) : Nat × bucket_t :=
  let d := it_tag b
  let d := if d = 0 then tcm97001_tag b else d
  let d := if d = 0 then revolt_tag b else d
  let d := if d = 0 then esa_tag b else d
  let d := if d = 0 then fs20fht_tag b else d
  let d := if d = 0 then em_tag b else d
  let d := if d = 0 then hms_tag b else d
  let d := if d = 0 then tx3_tag b else d
  let s := if d = 0 then
             (let b1 := ks300TryBucket b hightime
              let dk := ks300_tag b hightime
              if dk = 0 then (0, delbit b1) else (dk, b1))
           else (d, b)
  if s.1 = 0 ∧ hoermann_cond s.2 then
    (TYPE_HRM, (addbit s.2 (wave_equals s.2.one hightime 30 s.2.state)).1)
  else s

/-- A dispatch stage as an optional tag, for the first-success fold. -/
def stageOf (t : Nat) : Option Nat := if t = 0 then none else some t

/-- The dispatch list in source order (KS300 and Hoermann stages are functions
of the original tail bucket; they embed the speculative-bit handling). -/
def stageList (b : bucket_t) (hightime : Nat) : List (Option Nat) :=
  [stageOf (it_tag b), stageOf (tcm97001_tag b), stageOf (revolt_tag b),
   stageOf (esa_tag b), stageOf (fs20fht_tag b), stageOf (em_tag b),
   stageOf (hms_tag b), stageOf (tx3_tag b), stageOf (ks300_tag b hightime),
   stageOf (hoermann_tag b hightime)]

/-- Ring / interrupt-visible state: the bucket array, the producer and
consumer indices, the occupancy counter, and `packetCheckValues.isnotrep`
(the only `packetCheckValues` bit that `reset_input` touches). -/
structure RingState where
  buckets : Nat → bucket_t
  bucket_in : Nat
  bucket_out : Nat
  bucket_nrused : Nat
  isnotrep : Nat

/-- Function `reset_input`: mark the receiving bucket unused and clear
`packetCheckValues.isnotrep` (the `TIMSK1 = 0` hardware write has no software
state). -/
def reset_input (s : RingState) : RingState :=
  { s with
    buckets := fun i => if i = s.bucket_in then { s.buckets i with state := STATE_RESET }
                        else s.buckets i,
    isnotrep := 0 }

/-- The silence compare ISR (`ISR(TIMER1_COMPA_vect)`): a bucket below
`STATE_COLLECT` or with fewer than 2 data bytes is a false alarm; a full ring
(`nrused+1 == RCV_BUCKETS`) discards the bucket in place; otherwise the bucket
is published (`nrused++`, uint8, and `bucket_in` advanced with wrap). -/
def silenceISR (s : RingState) : RingState :=
  let b := s.buckets s.bucket_in
  if b.state < STATE_COLLECT ∨ b.byteidx < 2 then reset_input s
  else if s.bucket_nrused + 1 = RCV_BUCKETS then reset_input s
  else
    { s with
      bucket_nrused := (s.bucket_nrused + 1) % 256,
      bucket_in :=
        (let bi := (s.bucket_in + 1) % 256
         if bi = RCV_BUCKETS then 0 else bi) }

/-- The ring effect of one `RfAnalyze_Task` run: nothing below `nrused == 0`;
otherwise the tail bucket is reset and consumed (`nrused--` under the nonzero
guard, `bucket_out` advanced with wrap).  The decode work on the tail bucket's
contents is modelled separately (`rfDispatch`); it does not touch the ring
counters. -/
def rfAnalyzeRing (s : RingState) : RingState :=
  if s.bucket_nrused = 0 then s
  else
    { s with
      buckets := fun i => if i = s.bucket_out then { s.buckets i with state := STATE_RESET }
                          else s.buckets i,
      bucket_nrused := s.bucket_nrused - 1,
      bucket_out :=
        (let q := (s.bucket_out + 1) % 256
         if q = RCV_BUCKETS then 0 else q) }

/-- One scheduler step: the edge ISR (`ISR(CC1100_INTVECT)`) writes bucket
contents, templates and the timing globals but never the ring counters, so any
bucket-array change over-approximates it; the silence ISR and the analyze task
are embedded exactly (for their ring effect). -/
inductive RfStep : RingState → RingState → Prop
  | edge (s : RingState) (f : Nat → bucket_t) : RfStep s { s with buckets := f }
  | silence (s : RingState) : RfStep s (silenceISR s)
  | consume (s : RingState) : RfStep s (rfAnalyzeRing s)

/-- States reachable from power-on (static C objects zero-initialised, so
`bucket_nrused = 0`) by edge-ISR, silence-ISR and analyze-task steps. -/
inductive RingReachable : RingState → Prop
  | start (s : RingState) : s.bucket_nrused = 0 → RingReachable s
  | step {s s' : RingState} : RingReachable s → RfStep s s' → RingReachable s'

/-- Dedup/repeat-check state: `roby`/`robuf`/`reptime` (last payload and its
tick stamp) and the three `packetCheckValues` bits. -/
structure DedupState where
  roby : Nat
  robuf : Nat → Nat
  reptime : Nat
  isrep : Nat
  isnotrep : Nat
  packageOK : Nat

/-- The byte-compare loop `for(roby = 0; roby < oby; roby++) ...` with its
early `break`: returns the final loop index (the C code reuses `roby`) and
whether a mismatch was found (which clears `isnotrep`).  First argument is the
remaining iteration count. -/
def cmpLoop (robuf obuf : Nat → Nat) : Nat → Nat → Nat × Bool
  | 0, i => (i, false)
  | n + 1, i => if robuf i ≠ obuf i then (i, true) else cmpLoop robuf obuf n (i + 1)

/-- Lines 593–616 of `RfAnalyze_Task`: clear `isrep`/`packageOK`; unless
`REP_REPEATED` is set, compare the new payload against `robuf` (same length,
byte-wise, and `(ticks - reptime) < REPTIME` as uint32) to set `isrep`, then
save the payload into `robuf`/`roby` and stamp `reptime = ticks`. -/
def repeatCheckSave (tx_report oby : Nat) (obuf : Nat → Nat) (ticks : Nat)
    (g : DedupState) : DedupState :=
  let g0 := { g with isrep := 0, packageOK := 0 }
  if tx_report &&& REP_REPEATED ≠ 0 then g0
  else
    let cmp := cmpLoop g0.robuf obuf oby 0
    let g1 := if g0.roby = oby then
                (let ga := if cmp.2 then { g0 with isnotrep := 0 } else g0
                 if cmp.1 = oby ∧ sub32 ticks ga.reptime < REPTIME then { ga with isrep := 1 }
                 else ga)
              else g0
    { g1 with
      robuf := fun i => if i < oby then obuf i else g1.robuf i,
      roby := oby,
      reptime := ticks }

/-- Function `checkForRepeatedPackage`: for IT/TCM97001 a frame is accepted only when it
is a repeat that has not yet been reported (`isrep == 1 && isnotrep == 0`);
for all other types a frame is accepted iff it is not a repeat. -/
def checkForRepeatedPackage (datatype : Nat) (g : DedupState) : DedupState :=
  if datatype = TYPE_IT ∨ datatype = TYPE_TCM97001 then
    if g.isrep = 1 ∧ g.isnotrep = 0 then { g with isnotrep := 1, packageOK := 1 }
    else if g.isrep = 1 then { g with packageOK := 0 }
    else g
  else
    if g.isrep = 0 then { g with packageOK := 1 } else g

/-- The complete repeat-filter block of `RfAnalyze_Task` for one successful
decode (`datatype != 0` under `REP_KNOWN`): compare/save, the FHT
control-message override (`REP_FHTPROTO` clear), then
`checkForRepeatedPackage`.  `packageOK = 1` in the result is exactly "this
frame is emitted".  (HAS_RF_ROUTER is not defined, so the Forum #50756 branch
is absent.) -/
def dedupStep (tx_report datatype oby : Nat) (obuf : Nat → Nat) (ticks : Nat)
    (g : DedupState) : DedupState :=
  if datatype = 0 ∨ tx_report &&& REP_KNOWN = 0 then g
  else
    let g1 := repeatCheckSave tx_report oby obuf ticks g
    let g2 := if datatype = TYPE_FHT ∧ tx_report &&& REP_FHTPROTO = 0 ∧ 4 < oby ∧
                 (obuf 2 = FHT_ACK ∨ obuf 2 = FHT_ACK2 ∨ obuf 2 = FHT_CAN_XMIT ∨
                  obuf 2 = FHT_CAN_RCV ∨ obuf 2 = FHT_START_XMIT ∨ obuf 2 = FHT_END_XMIT ∨
                  (obuf 3 &&& 0x70) = 0x70)
              then { g1 with isrep := 1 } else g1
    checkForRepeatedPackage datatype g2

/-- HMS payload byte `j` as `analyze_hms` assembles it: stream bits
`10j..10j+7`, first-read bit least significant (`getbits(.., 8, 0)`). -/
def hmsByte (d : Nat → Nat) (j : Nat) : Nat := assembleBits d (10 * j) 8 0

/-- HMS payload byte `j` as the spec's words describe it ("assembled
MSB-first from the bit stream"): first-read bit most significant. -/
def hmsByteMSB (d : Nat → Nat) (j : Nat) : Nat := assembleBits d (10 * j) 8 1

/-- The HMS CRC byte (stream bits 60..67), LSB-first as the code reads it. -/
def hmsCrcByte (d : Nat → Nat) : Nat := assembleBits d 60 8 0

/-- Per-byte framing accepted by `analyze_hms`: the bit after byte `j` equals
the byte's even parity, and the bit after that must be clear. -/
def hmsOk (d : Nat → Nat) (j : Nat) : Prop :=
  streamBit d (10 * j + 8) = parity_even_bit (hmsByte d j) ∧ streamBit d (10 * j + 9) = 0

instance (d : Nat → Nat) (j : Nat) : Decidable (hmsOk d j) := by
  unfold hmsOk; infer_instance

/-- The XOR accumulator of the `analyze_hms` loop over bytes `j..j+n-1`. -/
def hmsCrcFold (d : Nat → Nat) : Nat → Nat → Nat → Nat
  | _j, 0, crc => crc
  | j, n + 1, crc => hmsCrcFold d (j + 1) n (crc ^^^ hmsByte d j)

/-- XOR of the six HMS payload bytes. -/
def hmsXor (d : Nat → Nat) : Nat :=
  hmsByte d 0 ^^^ hmsByte d 1 ^^^ hmsByte d 2 ^^^ hmsByte d 3 ^^^ hmsByte d 4 ^^^ hmsByte d 5

/-- Success condition of `analyze_hms`, stated over stream positions: at least
69 bits, each payload byte followed by its even-parity bit and a clear bit,
and a parity-verified CRC byte equal to the XOR of the payload bytes. -/
def hmsSpecOK (b : bucket_t) : Prop :=
  69 ≤ bitcntI b ∧ (∀ j < 6, hmsOk b.data j) ∧
  streamBit b.data 68 = parity_even_bit (hmsCrcByte b.data) ∧
  hmsCrcByte b.data = hmsXor b.data

/-- C3 as the claim words it: payload bytes assembled MSB-first, each followed
by its even-parity bit and a `1` stop-bit, CRC byte (MSB-first, with parity)
equal to the XOR of the payload bytes. -/
def hmsClaimOK (b : bucket_t) : Prop :=
  69 ≤ bitcntI b ∧
  (∀ j < 6, streamBit b.data (10 * j + 8) = parity_even_bit (hmsByteMSB b.data j) ∧
            streamBit b.data (10 * j + 9) = 1) ∧
  streamBit b.data 68 = parity_even_bit (assembleBits b.data 60 8 1) ∧
  assembleBits b.data 60 8 1 =
    hmsByteMSB b.data 0 ^^^ hmsByteMSB b.data 1 ^^^ hmsByteMSB b.data 2 ^^^
    hmsByteMSB b.data 3 ^^^ hmsByteMSB b.data 4 ^^^ hmsByteMSB b.data 5

instance (b : bucket_t) : Decidable (hmsClaimOK b) := by
  unfold hmsClaimOK; infer_instance

/-- A 69-bit bucket accepted by `analyze_hms`: payload `01 00 00 00 00 00`
(LSB-first assembly), parity bits correct, the inter-byte framing bits all
clear, CRC byte `01`. -/
def bC3 : bucket_t :=
  { state := STATE_COLLECT, byteidx := 8, sync := 0, bitidx := 2,
    data := fun i => if i = 0 then 0x80 else if i = 1 then 0x80 else
                     if i = 7 then 0x08 else if i = 8 then 0x08 else 0,
    zero := ⟨0, 0⟩, one := ⟨0, 0⟩ }

/-- ESA byte `j`: stream bits `8j..8j+7`, MSB-first (`getbits(.., 8, 1)`). -/
def esaByte (d : Nat → Nat) (j : Nat) : Nat := assembleBits d (8 * j) 8 1

/-- The `(salt, crc)` pair of the ESA descrambler after processing bytes
`j..j+n-1` (uint8 salt, uint16 additive crc). -/
def esaFoldSC (d : Nat → Nat) : Nat → Nat → Nat → Nat → Nat × Nat
  | 0, _j, s, crc => (s, crc)
  | n + 1, j, _salt, crc =>
    esaFoldSC d n (j + 1) ((esaByte d j + 0x24) % 256) ((crc + esaByte d j) % 65536)

/-- The salt the ESA descrambler XORs into byte `j`: `0x89` initially, then
`previous byte + 0x24` (uint8). -/
def esaSalt (d : Nat → Nat) : Nat → Nat
  | 0 => 0x89
  | j + 1 => (esaByte d j + 0x24) % 256

/-- The final ESA crc as the claim describes the computation: start from the
build constant, add the `ESA_DATALEN` payload bytes and the following byte,
then subtract the closing two bytes taken as a big-endian 16-bit value
(uint16 throughout). -/
def esaSpecCrc (d : Nat → Nat) : Nat :=
  let sc := esaFoldSC d ESA_DATALEN 0 0x89 ESA_CRC
  let c1 := (sc.2 + esaByte d ESA_DATALEN) % 65536
  (c1 + 2 * 65536 - (esaByte d (ESA_DATALEN + 1) * 256 + esaByte d (ESA_DATALEN + 2))) % 65536

/-- Success condition of `analyze_esa`: state ESA, exactly `ESA_BITLEN` bits,
and the descrambler's crc ends at zero. -/
def esaSpecOK (b : bucket_t) : Prop :=
  b.state = STATE_ESA ∧ bitcntI b = (ESA_BITLEN : Int) ∧ esaSpecCrc b.data = 0

/-- TX3 output byte 0: `0x80` ORed with the first 7 stream bits (MSB-first). -/
def tx3B0 (d : Nat → Nat) : Nat := 0x80 ||| assembleBits d 0 7 1

/-- TX3 output byte `j` (for `j = 1, 2, 3`): 8 stream bits starting at
position `8j - 1`, MSB-first. -/
def tx3B (d : Nat → Nat) (j : Nat) : Nat := assembleBits d (8 * j - 1) 8 1

/-- TX3 output byte 4: stream bits 31..37 (MSB-first), shifted left once. -/
def tx3B4 (d : Nat → Nat) : Nat := assembleBits d 31 7 1 <<< 1

/-- The nibble sum of `analyze_TX3` over the five output bytes (uint8 partial
sums, final mask `& 0xF`). -/
def tx3Sum (d : Nat → Nat) : Nat :=
  let c0 := (0 + (tx3B0 d >>> 4) + (tx3B0 d &&& 0xf)) % 256
  let c1 := (c0 + (tx3B d 1 >>> 4) + (tx3B d 1 &&& 0xf)) % 256
  let c2 := (c1 + (tx3B d 2 >>> 4) + (tx3B d 2 &&& 0xf)) % 256
  let c3 := (c2 + (tx3B d 3 >>> 4) + (tx3B d 3 &&& 0xf)) % 256
  (c3 + (tx3B4 d >>> 4)) &&& 0xF

/-- The repeat condition of the dedup filter: same length, byte-identical with
`robuf`, and `(ticks - reptime) < REPTIME` as uint32. -/
def isRepeatOf (g : DedupState) (oby : Nat) (obuf : Nat → Nat) (ticks : Nat) : Prop :=
  g.roby = oby ∧ (∀ i < oby, g.robuf i = obuf i) ∧ sub32 ticks g.reptime < REPTIME

instance (g : DedupState) (oby : Nat) (obuf : Nat → Nat) (ticks : Nat) :
    Decidable (isRepeatOf g oby obuf ticks) := by
  unfold isRepeatOf; infer_instance

/-- Conclusion of the C5 claim about the compare/save block. -/
def c5Concl (tx_report oby : Nat) (obuf : Nat → Nat) (ticks : Nat) (g : DedupState) : Prop :=
  ((repeatCheckSave tx_report oby obuf ticks g).isrep = 1 ↔ isRepeatOf g oby obuf ticks) ∧
  (repeatCheckSave tx_report oby obuf ticks g).roby = oby ∧
  (∀ i < oby, (repeatCheckSave tx_report oby obuf ticks g).robuf i = obuf i) ∧
  (repeatCheckSave tx_report oby obuf ticks g).reptime = ticks

/-- Conclusion of the (amended) C4 claim: three consecutive arrivals of the
same payload — first not emitted, second emitted, third suppressed again. -/
def c4Concl (tx_report dt oby : Nat) (obuf : Nat → Nat) (t1 t2 t3 : Nat)
    (g0 : DedupState) : Prop :=
  (dedupStep tx_report dt oby obuf t1 g0).packageOK = 0 ∧
  (dedupStep tx_report dt oby obuf t2 (dedupStep tx_report dt oby obuf t1 g0)).packageOK = 1 ∧
  (dedupStep tx_report dt oby obuf t3
     (dedupStep tx_report dt oby obuf t2 (dedupStep tx_report dt oby obuf t1 g0))).packageOK = 0

/-- Conclusion of the (amended) C9 claim: on KS300 failure the write cursor is
restored exactly and all complete bytes below it are untouched. -/
def c9Concl (b : bucket_t) (hightime : Nat) : Prop :=
  (afterKS300 b hightime).byteidx = b.byteidx ∧
  (afterKS300 b hightime).bitidx = b.bitidx ∧
  ∀ i < b.byteidx, (afterKS300 b hightime).data i = b.data i

/-- Conclusion of the (amended) C2 claim: the silence ISR publishes the bucket
(`nrused` incremented, `bucket_in` advanced) iff it holds at least two bytes,
its state is at least `STATE_COLLECT`, and the ring is not full; otherwise the
counters stay and the bucket is reset. -/
def c2Concl (s : RingState) : Prop :=
  ((silenceISR s).bucket_nrused = s.bucket_nrused + 1 ↔
    (STATE_COLLECT ≤ (s.buckets s.bucket_in).state ∧ 2 ≤ (s.buckets s.bucket_in).byteidx ∧
     s.bucket_nrused + 1 ≠ RCV_BUCKETS)) ∧
  ((STATE_COLLECT ≤ (s.buckets s.bucket_in).state ∧ 2 ≤ (s.buckets s.bucket_in).byteidx ∧
     s.bucket_nrused + 1 ≠ RCV_BUCKETS) →
    (silenceISR s).bucket_in = (if s.bucket_in + 1 = RCV_BUCKETS then 0 else s.bucket_in + 1)) ∧
  (¬ (STATE_COLLECT ≤ (s.buckets s.bucket_in).state ∧ 2 ≤ (s.buckets s.bucket_in).byteidx ∧
      s.bucket_nrused + 1 ≠ RCV_BUCKETS) →
    (silenceISR s).bucket_nrused = s.bucket_nrused ∧
    (silenceISR s).bucket_in = s.bucket_in ∧
    ((silenceISR s).buckets s.bucket_in).state = STATE_RESET)

/-- A bucket in COLLECT with 2 bytes: publishable content. -/
def bCollect : bucket_t :=
  { state := STATE_COLLECT, byteidx := 2, sync := 0, bitidx := 7,
    data := fun _ => 0, zero := ⟨0, 0⟩, one := ⟨0, 0⟩ }

/-- Ring with publishable content in the input bucket but `nrused + 1 =
RCV_BUCKETS` (every other bucket still unprocessed). -/
def sC2 : RingState :=
  { buckets := fun _ => bCollect, bucket_in := 0, bucket_out := 1,
    bucket_nrused := RCV_BUCKETS - 1, isnotrep := 0 }

/-- Ring with publishable content and room: used as the C2 witness state. -/
def sC2w : RingState :=
  { buckets := fun _ => bCollect, bucket_in := 0, bucket_out := 0,
    bucket_nrused := 0, isnotrep := 0 }

/-- Power-on ring state (static C objects are zero-initialised). -/
def ringStart : RingState :=
  { buckets := fun _ => { state := STATE_RESET, byteidx := 0, sync := 0, bitidx := 7,
                          data := fun _ => 0, zero := ⟨0, 0⟩, one := ⟨0, 0⟩ },
    bucket_in := 0, bucket_out := 0, bucket_nrused := 0, isnotrep := 0 }

/-- Bucket for the C9/C1 KS300 scenario: mid-frame cursor, matching `one`
template so the speculative bit is a 1, and a KS300 decode that fails. -/
def bC9 : bucket_t :=
  { state := STATE_COLLECT, byteidx := 2, sync := 0, bitidx := 5,
    data := fun _ => 0, zero := ⟨10, 10⟩, one := ⟨10, 10⟩ }

/-- Bucket one byte short of full: `byteidx = MAXMSG - 1`, `bitidx = 0`, with
sentinel data to observe the out-of-bounds zero-initialisation. -/
def bC10 : bucket_t :=
  { state := STATE_COLLECT, byteidx := MAXMSG - 1, sync := 0, bitidx := 0,
    data := fun _ => 255, zero := ⟨0, 0⟩, one := ⟨0, 0⟩ }

/-- Dedup state for the C4 counterexample: `isnotrep` still set from an
earlier emission of a different-length payload, `robuf` stale. -/
def gC4 : DedupState :=
  { roby := 8, robuf := fun _ => 9, reptime := 0, isrep := 0, isnotrep := 1, packageOK := 0 }

/-- Dedup state for the C4 witness: as `gC4` but with `isnotrep` clear. -/
def gC4w : DedupState :=
  { roby := 8, robuf := fun _ => 9, reptime := 0, isrep := 0, isnotrep := 0, packageOK := 0 }

/-- The 3-byte payload used in the C4 scenarios. -/
def obufC4 : Nat → Nat := fun _ => 5

/-- Dedup state for the C5 witness. -/
def gC5 : DedupState :=
  { roby := 2, robuf := fun _ => 7, reptime := 90, isrep := 0, isnotrep := 0, packageOK := 0 }

theorem cursorAt_zero (d : Nat → Nat) : cursorAt d 0 = ⟨d, 0, 7⟩ := rfl

theorem streamBit_cases (d : Nat → Nat) (p : Nat) : streamBit d p = 0 ∨ streamBit d p = 1 := by
  unfold streamBit
  by_cases h : (d (p / 8)).testBit (7 - p % 8) <;> simp [h]

theorem getbit_cursorAt (d : Nat → Nat) (p : Nat) :
    getbit (cursorAt d p) = (streamBit d p, cursorAt d (p + 1)) := by
  unfold getbit cursorAt streamBit
  by_cases h : p % 8 = 7
  · have h0 : 7 - p % 8 = 0 := by omega
    have h1 : (p + 1) / 8 = p / 8 + 1 := by omega
    have h2 : 7 - (p + 1) % 8 = 7 := by omega
    simp [h0, h1, h2]
  · have h0 : ¬ (7 - p % 8 = 0) := by omega
    have h1 : (p + 1) / 8 = p / 8 := by omega
    have h2 : 7 - (p + 1) % 8 = 7 - p % 8 - 1 := by omega
    simp [h0, h1, h2]

theorem getbits_fold_spec (d : Nat → Nat) (sh : Nat → Nat) (n : Nat) :
    ∀ (p a : Nat),
    (List.range n).foldl
      (fun ri i =>
        let bi := getbit ri.2
        if bi.1 = 1 then (ri.1 ||| (1 <<< sh i), bi.2) else (ri.1, bi.2))
      (a, cursorAt d p)
    = ((List.range n).foldl
        (fun a i => if streamBit d (p + i) = 1 then a ||| (1 <<< sh i) else a) a,
       cursorAt d (p + n)) := by
  induction n with
  | zero => intro p a; simp
  | succ k ih =>
    intro p a
    rw [List.range_succ, List.foldl_append, List.foldl_append, ih]
    simp only [List.foldl_cons, List.foldl_nil, getbit_cursorAt]
    by_cases h : streamBit d (p + k) = 1 <;> simp [h, Nat.add_assoc]

theorem getbits_cursorAt (d : Nat → Nat) (p nbits msb : Nat) :
    getbits (cursorAt d p) nbits msb = (assembleBits d p nbits msb, cursorAt d (p + nbits)) := by
  unfold getbits assembleBits
  exact getbits_fold_spec d (fun i => if msb = 1 then nbits - i - 1 else i) nbits p 0

theorem foldl_bind_none {α β : Type} (f : β → α → Option α) (l : List β) :
    l.foldl (fun acc x => acc.bind (fun s => f x s)) none = none := by
  induction l with
  | nil => rfl
  | cons h t ih => simpa using ih

theorem assembleBits_lt (d : Nat → Nat) (p nbits msb : Nat) :
    assembleBits d p nbits msb < 2 ^ nbits := by
  unfold assembleBits
  have key : ∀ (l : List Nat) (a : Nat), (∀ i ∈ l, i < nbits) → a < 2 ^ nbits →
      l.foldl (fun a i =>
        if streamBit d (p + i) = 1 then a ||| (1 <<< (if msb = 1 then nbits - i - 1 else i))
        else a) a < 2 ^ nbits := by
    intro l
    induction l with
    | nil => intro a _ ha; simpa using ha
    | cons x t ih =>
      intro a hmem ha
      simp only [List.foldl_cons]
      apply ih
      · intro i hi; exact hmem i (List.mem_cons_of_mem x hi)
      · by_cases hb : streamBit d (p + x) = 1
        · rw [if_pos hb]
          apply Nat.or_lt_two_pow ha
          have hx : x < nbits := hmem x (List.mem_cons_self x t)
          have hs : (if msb = 1 then nbits - x - 1 else x) < nbits := by
            by_cases hm : msb = 1 <;> simp [hm] <;> omega
          calc 1 <<< (if msb = 1 then nbits - x - 1 else x)
              = 2 ^ (if msb = 1 then nbits - x - 1 else x) := by
                rw [Nat.shiftLeft_eq, Nat.one_mul]
            _ < 2 ^ nbits := Nat.pow_lt_pow_right (by omega) hs
        · rw [if_neg hb]; exact ha
  apply key
  · intro i hi; exact List.mem_range.mp hi
  · exact Nat.pos_pow_of_pos nbits (by omega)

theorem hmsLoop_spec (d : Nat → Nat) :
    ∀ (n j : Nat) (obuf : Nat → Nat) (crc : Nat),
    (List.range' j n).foldl (fun acc oby => acc.bind (hmsStep oby))
        (some (obuf, crc, cursorAt d (10 * j)))
    = if ∀ k, j ≤ k → k < j + n → hmsOk d k then
        some ((fun i => if j ≤ i ∧ i < j + n then hmsByte d i else obuf i),
              hmsCrcFold d j n crc, cursorAt d (10 * (j + n)))
      else none := by
  intro n
  induction n with
  | zero =>
    intro j obuf crc
    have hc : ∀ k, j ≤ k → k < j + 0 → hmsOk d k := fun k h1 h2 => absurd h2 (by omega)
    rw [if_pos hc]
    have hf : (fun i => if j ≤ i ∧ i < j + 0 then hmsByte d i else obuf i) = obuf := by
      funext i
      rw [if_neg (by omega)]
    rw [hf]
    simp [List.range', hmsCrcFold]
  | succ m ih =>
    intro j obuf crc
    rw [List.range'_succ]
    simp only [List.foldl_cons, Option.some_bind]
    have hstep : hmsStep j (obuf, crc, cursorAt d (10 * j)) =
        if streamBit d (10 * j + 8) = parity_even_bit (hmsByte d j) then
          (if streamBit d (10 * j + 9) = 1 then none
           else some (updf obuf j (hmsByte d j), crc ^^^ hmsByte d j, cursorAt d (10 * j + 10)))
        else none := by
      unfold hmsStep
      simp only [getbits_cursorAt, getbit_cursorAt]
      rw [show assembleBits d (10 * j) 8 0 = hmsByte d j from rfl]
      have e9 : 10 * j + 8 + 1 = 10 * j + 9 := by omega
      have e10 : 10 * j + 9 + 1 = 10 * j + 10 := by omega
      rw [e9, e10]
      by_cases hp : streamBit d (10 * j + 8) = parity_even_bit (hmsByte d j)
      · rw [if_pos hp, if_neg (not_not_intro hp.symm)]
      · rw [if_neg hp, if_pos (fun h => hp h.symm)]
    rw [hstep]
    by_cases hp : streamBit d (10 * j + 8) = parity_even_bit (hmsByte d j)
    · rw [if_pos hp]
      by_cases hs : streamBit d (10 * j + 9) = 1
      · rw [if_pos hs, foldl_bind_none, if_neg]
        intro hall
        have h2 := (hall j (Nat.le_refl j) (by omega)).2
        rw [h2] at hs
        exact absurd hs (by omega)
      · rw [if_neg hs]
        have hs0 : streamBit d (10 * j + 9) = 0 := by
          rcases streamBit_cases d (10 * j + 9) with h | h
          · exact h
          · exact absurd h hs
        have h10 : 10 * j + 10 = 10 * (j + 1) := by ring
        rw [h10, ih (j + 1) (updf obuf j (hmsByte d j)) (crc ^^^ hmsByte d j)]
        have hcond : (∀ k, j + 1 ≤ k → k < (j + 1) + m → hmsOk d k) ↔
            (∀ k, j ≤ k → k < j + (m + 1) → hmsOk d k) := by
          constructor
          · intro h k h1 h2
            by_cases hk : k = j
            · subst hk; exact ⟨hp, hs0⟩
            · exact h k (by omega) (by omega)
          · intro h k h1 h2
            exact h k (by omega) (by omega)
        by_cases hall : ∀ k, j ≤ k → k < j + (m + 1) → hmsOk d k
        · rw [if_pos (hcond.mpr hall), if_pos hall]
          have hof : (fun i => if j + 1 ≤ i ∧ i < (j + 1) + m then hmsByte d i
                               else updf obuf j (hmsByte d j) i)
                   = (fun i => if j ≤ i ∧ i < j + (m + 1) then hmsByte d i else obuf i) := by
            funext i
            by_cases h1 : j + 1 ≤ i ∧ i < (j + 1) + m
            · rw [if_pos h1, if_pos (by omega)]
            · rw [if_neg h1]
              unfold updf
              by_cases h2 : i = j
              · subst h2; rw [if_pos rfl, if_pos (by omega)]
              · rw [if_neg h2, if_neg (by omega)]
          rw [hof]
          have hcrc : hmsCrcFold d (j + 1) m (crc ^^^ hmsByte d j) =
              hmsCrcFold d j (m + 1) crc := rfl
          rw [hcrc]
          have hj : (j + 1) + m = j + (m + 1) := by omega
          rw [hj]
        · rw [if_neg (fun h => hall (hcond.mp h)), if_neg hall]
    · rw [if_neg hp, foldl_bind_none, if_neg]
      intro hall
      exact hp (hall j (Nat.le_refl j) (by omega)).1

theorem hmsCrcFold_xor (d : Nat → Nat) : hmsCrcFold d 0 6 0 = hmsXor d := by
  simp [hmsCrcFold, hmsXor]

/-- C3 (amended): `analyze_hms` succeeds exactly when the bucket holds at
least 69 bits, each of the 6 payload bytes — assembled LSB-first from the bit
stream (first-read bit least significant) — is followed by its even-parity bit
and a clear bit, and the subsequent CRC byte (with its own verified parity
bit) equals the XOR of the 6 payload bytes; on success the output is exactly
those 6 payload bytes, and a bucket with fewer than 69 bits always fails. -/
theorem c3_hms_characterization (b : bucket_t) :
    ((analyze_hms b).isSome ↔ hmsSpecOK b) ∧
    (analyze_hms b).elim True (fun r => r.2 = 6 ∧ ∀ j < 6, r.1 j = hmsByte b.data j) := by
  unfold analyze_hms
  by_cases hlen : bitcntI b < 69
  · rw [if_pos hlen]
    refine ⟨?_, trivial⟩
    simp only [Option.isSome_none, Bool.false_eq_true, false_iff]
    intro hsp
    have h1 := hsp.1
    unfold hmsSpecOK at hsp
    omega
  · rw [if_neg hlen]
    rw [show (⟨b.data, 0, 7⟩ : input_t) = cursorAt b.data (10 * 0) from rfl]
    rw [List.range_eq_range']
    rw [hmsLoop_spec b.data 6 0 (fun _ => 0) 0]
    by_cases hall : ∀ k, 0 ≤ k → k < 0 + 6 → hmsOk b.data k
    · rw [if_pos hall]
      dsimp only
      rw [getbits_cursorAt, getbit_cursorAt]
      rw [show assembleBits b.data (10 * (0 + 6)) 8 0 = hmsCrcByte b.data from rfl]
      rw [show (10 * (0 + 6) + 8 : Nat) = 68 from by norm_num]
      rw [hmsCrcFold_xor]
      by_cases hpar : streamBit b.data 68 = parity_even_bit (hmsCrcByte b.data)
      · rw [if_neg (not_not_intro hpar.symm)]
        by_cases hcrc : hmsCrcByte b.data = hmsXor b.data
        · rw [if_neg (not_not_intro hcrc.symm)]
          constructor
          · simp only [Option.isSome_some, true_iff]
            refine ⟨by omega, ?_, hpar, hcrc⟩
            intro j hj
            exact hall j (by omega) (by omega)
          · refine ⟨rfl, ?_⟩
            intro j hj
            show (if 0 ≤ j ∧ j < 0 + 6 then hmsByte b.data j else 0) = hmsByte b.data j
            rw [if_pos (by omega)]
        · rw [if_pos (fun h => hcrc h.symm)]
          refine ⟨?_, trivial⟩
          simp only [Option.isSome_none, Bool.false_eq_true, false_iff]
          intro hsp
          exact hcrc hsp.2.2.2
      · rw [if_pos (fun h => hpar h.symm)]
        refine ⟨?_, trivial⟩
        simp only [Option.isSome_none, Bool.false_eq_true, false_iff]
        intro hsp
        exact hpar hsp.2.2.1
    · rw [if_neg hall]
      refine ⟨?_, trivial⟩
      simp only [Option.isSome_none, Bool.false_eq_true, false_iff]
      intro hsp
      exact hall (fun k _ hk => hsp.2.1 k (by omega))

/-- C3 counterexample: a bucket that `analyze_hms` accepts although its
inter-byte framing bits are all 0 (the claim demands `1` stop-bits) and whose
first output byte is `0x01`, the LSB-first assembly, not the claim's MSB-first
`0x80`. -/
theorem c3_counterexample :
    (analyze_hms bC3).isSome = true ∧
    ((analyze_hms bC3).elim 0 (fun r => r.1 0)) = 1 ∧
    hmsByteMSB bC3.data 0 = 128 ∧
    streamBit bC3.data 9 = 0 ∧
    ¬ hmsClaimOK bC3 := by decide

theorem esaLoop_spec (d : Nat → Nat) :
    ∀ (n j salt crc : Nat) (obuf : Nat → Nat),
    esaLoop n (cursorAt d (8 * j)) salt crc obuf j
    = (cursorAt d (8 * (j + n)), (esaFoldSC d n j salt crc).1, (esaFoldSC d n j salt crc).2,
       (fun i => if j ≤ i ∧ i < j + n then
                   esaByte d i ^^^ (if i = j then salt else esaSalt d i) else obuf i),
       j + n) := by
  intro n
  induction n with
  | zero =>
    intro j salt crc obuf
    have hf : (fun i => if j ≤ i ∧ i < j + 0 then
                 esaByte d i ^^^ (if i = j then salt else esaSalt d i) else obuf i) = obuf := by
      funext i
      rw [if_neg (by omega)]
    rw [hf]
    simp [esaLoop, esaFoldSC]
  | succ m ih =>
    intro j salt crc obuf
    have hstep : esaLoop (m + 1) (cursorAt d (8 * j)) salt crc obuf j
        = esaLoop m (cursorAt d (8 * (j + 1))) ((esaByte d j + 0x24) % 256)
            ((crc + esaByte d j) % 65536) (updf obuf j (esaByte d j ^^^ salt)) (j + 1) := by
      simp only [esaLoop, getbits_cursorAt]
      rw [show (8 * j + 8 : Nat) = 8 * (j + 1) from by ring]
      rfl
    rw [hstep, ih (j + 1) ((esaByte d j + 0x24) % 256) ((crc + esaByte d j) % 65536)
          (updf obuf j (esaByte d j ^^^ salt))]
    simp only [Prod.mk.injEq]
    refine ⟨?_, ?_, ?_, ?_, by omega⟩
    · rw [show (j + 1) + m = j + (m + 1) from by omega]
    · rfl
    · rfl
    · funext i
      by_cases h1 : j + 1 ≤ i ∧ i < (j + 1) + m
      · rw [if_pos h1, if_pos (by omega : j ≤ i ∧ i < j + (m + 1))]
        rw [if_neg (by omega : ¬ i = j)]
        by_cases h2 : i = j + 1
        · subst h2
          rw [if_pos rfl]
          rfl
        · rw [if_neg h2]
      · rw [if_neg h1]
        unfold updf
        by_cases h2 : i = j
        · subst h2
          rw [if_pos rfl, if_pos (by omega : i ≤ i ∧ i < i + (m + 1)), if_pos rfl]
        · rw [if_neg h2, if_neg (by omega : ¬ (j ≤ i ∧ i < j + (m + 1)))]

/-- C6: `analyze_esa` succeeds iff the bucket is in state ESA, holds exactly
`ESA_BITLEN` bits, and the descrambling computation of the claim ends with
crc = 0; on success the output is the descrambled payload (`byte XOR salt`
per byte, then `byte XOR 0xFF`). -/
theorem c6_esa_characterization (b : bucket_t) :
    ((analyze_esa b).isSome ↔ esaSpecOK b) ∧
    (analyze_esa b).elim True (fun r => r.2 = ESA_DATALEN + 1 ∧
      (∀ j < ESA_DATALEN, r.1 j = esaByte b.data j ^^^ esaSalt b.data j) ∧
      r.1 ESA_DATALEN = esaByte b.data ESA_DATALEN ^^^ 0xff) := by
  unfold analyze_esa
  by_cases hst : b.state ≠ STATE_ESA
  · rw [if_pos hst]
    refine ⟨?_, trivial⟩
    simp only [Option.isSome_none, Bool.false_eq_true, false_iff]
    intro hsp
    exact hst hsp.1
  · rw [if_neg hst]
    by_cases hlen : bitcntI b ≠ (ESA_BITLEN : Int)
    · rw [if_pos hlen]
      refine ⟨?_, trivial⟩
      simp only [Option.isSome_none, Bool.false_eq_true, false_iff]
      intro hsp
      exact hlen hsp.2.1
    · rw [if_neg hlen]
      rw [show (⟨b.data, 0, 7⟩ : input_t) = cursorAt b.data (8 * 0) from rfl]
      rw [esaLoop_spec b.data ESA_DATALEN 0 0x89 ESA_CRC (fun _ => 0)]
      dsimp only
      rw [show (0 + ESA_DATALEN : Nat) = 15 from by norm_num [ESA_DATALEN]]
      rw [getbits_cursorAt]
      rw [show (8 * 15 + 8 : Nat) = 8 * 16 from by norm_num]
      rw [getbits_cursorAt]
      rw [show (8 * 16 + 8 : Nat) = 8 * 17 from by norm_num]
      rw [getbits_cursorAt]
      rw [show assembleBits b.data (8 * 15) 8 1 = esaByte b.data 15 from rfl]
      rw [show assembleBits b.data (8 * 16) 8 1 = esaByte b.data 16 from rfl]
      rw [show assembleBits b.data (8 * 17) 8 1 = esaByte b.data 17 from rfl]
      have hb16 : esaByte b.data 16 < 256 := by
        have h := assembleBits_lt b.data (8 * 16) 8 1
        simpa [esaByte] using h
      have hb17 : esaByte b.data 17 < 256 := by
        have h := assembleBits_lt b.data (8 * 17) 8 1
        simpa [esaByte] using h
      have hcrc : ((((esaFoldSC b.data ESA_DATALEN 0 0x89 ESA_CRC).2 + esaByte b.data 15) % 65536
            + 65536 - esaByte b.data 16 <<< 8) % 65536 + 65536 - esaByte b.data 17) % 65536
          = esaSpecCrc b.data := by
        unfold esaSpecCrc
        dsimp only
        rw [show (ESA_DATALEN : Nat) = 15 from rfl]
        rw [Nat.shiftLeft_eq]
        rw [show ((2 : Nat) ^ 8) = 256 from by norm_num]
        rw [show (15 + 1 : Nat) = 16 from by norm_num]
        rw [show (15 + 2 : Nat) = 17 from by norm_num]
        omega
      rw [hcrc]
      by_cases hz : esaSpecCrc b.data ≠ 0
      · rw [if_pos hz]
        refine ⟨?_, trivial⟩
        simp only [Option.isSome_none, Bool.false_eq_true, false_iff]
        intro hsp
        exact hz hsp.2.2
      · rw [if_neg hz]
        constructor
        · simp only [Option.isSome_some, true_iff]
          refine ⟨by omega, by omega, by omega⟩
        · have h15 : (ESA_DATALEN : Nat) = 15 := rfl
          refine ⟨by norm_num [ESA_DATALEN], ?_, ?_⟩
          · intro j hj
            have hj15 : j < 15 := by omega
            show updf (fun i => if 0 ≤ i ∧ i < 15 then
                esaByte b.data i ^^^ (if i = 0 then 0x89 else esaSalt b.data i)
                else (fun _ => 0) i) 15 (esaByte b.data 15 ^^^ 0xff) j
              = esaByte b.data j ^^^ esaSalt b.data j
            simp only [updf]
            rw [if_neg (by omega : ¬ j = 15), if_pos (by omega : 0 ≤ j ∧ j < 15)]
            by_cases hj0 : j = 0
            · subst hj0
              rw [if_pos rfl]
              rfl
            · rw [if_neg hj0]
          · rw [h15]
            show updf (fun i => if 0 ≤ i ∧ i < 15 then
                esaByte b.data i ^^^ (if i = 0 then 0x89 else esaSalt b.data i)
                else (fun _ => 0) i) 15 (esaByte b.data 15 ^^^ 0xff) 15
              = esaByte b.data 15 ^^^ 0xff
            simp [updf]

theorem tx3Step_eq_zero (d : Nat → Nat) (p crc : Nat) (obuf : Nat → Nat) :
    tx3Step 0 (cursorAt d p, crc, obuf) =
      (cursorAt d (p + 7),
       (crc + ((0x80 ||| assembleBits d p 7 1) >>> 4) +
          ((0x80 ||| assembleBits d p 7 1) &&& 0xf)) % 256,
       updf obuf 0 (0x80 ||| assembleBits d p 7 1)) := by
  simp [tx3Step, getbits_cursorAt]

theorem tx3Step_eq_succ (d : Nat → Nat) (oby p crc : Nat) (obuf : Nat → Nat) (h : oby ≠ 0) :
    tx3Step oby (cursorAt d p, crc, obuf) =
      (cursorAt d (p + 8),
       (crc + (assembleBits d p 8 1 >>> 4) + (assembleBits d p 8 1 &&& 0xf)) % 256,
       updf obuf oby (assembleBits d p 8 1)) := by
  simp [tx3Step, getbits_cursorAt, h]

/-- C7: `analyze_TX3` succeeds iff the bucket has `byteidx = 4` and
`bitidx = 1`, the high nibble of the first assembled byte is `0xA`, and the
nibble-sum check (`(sum & 0xF) >> 4 == 0`, which the masking makes
universally true) passes; on success the output is the five MSB-first bytes
with 7 data bits in the first and last byte. -/
theorem c7_tx3_characterization (b : bucket_t) :
    ((analyze_TX3 b).isSome ↔
      (b.byteidx = 4 ∧ b.bitidx = 1 ∧ (tx3Sum b.data >>> 4) = 0 ∧
       (tx3B0 b.data >>> 4) = 0xA)) ∧
    (analyze_TX3 b).elim True (fun r => r.2 = 5 ∧ r.1 0 = tx3B0 b.data ∧
      r.1 1 = tx3B b.data 1 ∧ r.1 2 = tx3B b.data 2 ∧ r.1 3 = tx3B b.data 3 ∧
      r.1 4 = tx3B4 b.data) := by
  unfold analyze_TX3
  by_cases hsh : b.byteidx ≠ 4 ∨ b.bitidx ≠ 1
  · rw [if_pos hsh]
    refine ⟨?_, trivial⟩
    simp only [Option.isSome_none, Bool.false_eq_true, false_iff]
    intro hsp
    rcases hsh with h | h
    · exact h hsp.1
    · exact h hsp.2.1
  · rw [if_neg hsh]
    push_neg at hsh
    rw [show (⟨b.data, 0, 7⟩ : input_t) = cursorAt b.data 0 from rfl]
    rw [show (List.range 4) = [0, 1, 2, 3] from by decide]
    simp only [List.foldl_cons, List.foldl_nil]
    rw [tx3Step_eq_zero]
    rw [tx3Step_eq_succ b.data 1 _ _ _ (by decide)]
    rw [tx3Step_eq_succ b.data 2 _ _ _ (by decide)]
    rw [tx3Step_eq_succ b.data 3 _ _ _ (by decide)]
    rw [show (0 + 7 : Nat) = 7 from rfl]
    rw [show (7 + 8 : Nat) = 15 from rfl]
    rw [show (15 + 8 : Nat) = 23 from rfl]
    rw [show (23 + 8 : Nat) = 31 from rfl]
    rw [getbits_cursorAt]
    rw [show (0x80 ||| assembleBits b.data 0 7 1) = tx3B0 b.data from rfl]
    rw [show assembleBits b.data 7 8 1 = tx3B b.data 1 from rfl]
    rw [show assembleBits b.data 15 8 1 = tx3B b.data 2 from rfl]
    rw [show assembleBits b.data 23 8 1 = tx3B b.data 3 from rfl]
    dsimp only
    rw [show assembleBits b.data 31 7 1 <<< 1 = tx3B4 b.data from rfl]
    have hsum : ((((((0 + (tx3B0 b.data >>> 4) + (tx3B0 b.data &&& 0xf)) % 256
        + (tx3B b.data 1 >>> 4) + (tx3B b.data 1 &&& 0xf)) % 256
        + (tx3B b.data 2 >>> 4) + (tx3B b.data 2 &&& 0xf)) % 256
        + (tx3B b.data 3 >>> 4) + (tx3B b.data 3 &&& 0xf)) % 256)
        + (tx3B4 b.data >>> 4)) &&& 0xF = tx3Sum b.data := rfl
    rw [hsum]
    have hobuf0 : updf (updf (updf (updf (updf (fun _ => 0) 0 (tx3B0 b.data))
        1 (tx3B b.data 1)) 2 (tx3B b.data 2)) 3 (tx3B b.data 3)) 4 (tx3B4 b.data) 0
        = tx3B0 b.data := by
      simp [updf]
    rw [hobuf0]
    by_cases hc : (tx3Sum b.data >>> 4) ≠ 0 ∨ (tx3B0 b.data >>> 4) ≠ 0xA
    · rw [if_pos hc]
      refine ⟨?_, trivial⟩
      simp only [Option.isSome_none, Bool.false_eq_true, false_iff]
      intro hsp
      rcases hc with h | h
      · exact h hsp.2.2.1
      · exact h hsp.2.2.2
    · rw [if_neg hc]
      push_neg at hc
      constructor
      · simp only [Option.isSome_some, true_iff]
        exact ⟨hsh.1, hsh.2, hc.1, hc.2⟩
      · refine ⟨rfl, ?_, ?_, ?_, ?_, ?_⟩ <;> simp [updf]

/-- C1: the decoder dispatch of `RfAnalyze_Task` equals the first success of
the stage list IT/ITV3 → TCM97001 → Revolt → ESA → FS20/FHT → EM → HMS → TX3 →
KS300 (with speculative final bit) → Hoermann: the first stage that succeeds
fixes the emitted type tag and every later stage is skipped (so at most one
decoder assigns a datatype). -/
theorem c1_dispatch_first_success (b : bucket_t) (hightime : Nat) :
    (rfDispatch b hightime).1 = ((stageList b hightime).findSome? id).getD 0 := by
  unfold rfDispatch stageList stageOf
  by_cases h1 : it_tag b = 0
  · by_cases h2 : tcm97001_tag b = 0
    · by_cases h3 : revolt_tag b = 0
      · by_cases h4 : esa_tag b = 0
        · by_cases h5 : fs20fht_tag b = 0
          · by_cases h6 : em_tag b = 0
            · by_cases h7 : hms_tag b = 0
              · by_cases h8 : tx3_tag b = 0
                · by_cases h9 : ks300_tag b hightime = 0
                  · have hAfter : afterKS300 b hightime =
                        delbit (ks300TryBucket b hightime) := by
                      simp [afterKS300, h9]
                    by_cases h10 : hoermann_cond (delbit (ks300TryBucket b hightime))
                    · simp [h1, h2, h3, h4, h5, h6, h7, h8, h9, h10, hoermann_tag, hAfter,
                            TYPE_HRM]
                    · simp [h1, h2, h3, h4, h5, h6, h7, h8, h9, h10, hoermann_tag, hAfter]
                  · simp [h1, h2, h3, h4, h5, h6, h7, h8, h9]
                · simp [h1, h2, h3, h4, h5, h6, h7, h8]
              · simp [h1, h2, h3, h4, h5, h6, h7]
            · simp [h1, h2, h3, h4, h5, h6]
          · simp [h1, h2, h3, h4, h5]
        · simp [h1, h2, h3, h4]
      · simp [h1, h2, h3]
    · simp [h1, h2]
  · simp [h1]

/-- C2 counterexample: with the ring full (`nrused + 1 = RCV_BUCKETS`) the
silence ISR discards a bucket that is in COLLECT and carries 2 bytes —
`nrused` and `bucket_in` stay and the bucket is reset — although the claim
says such a bucket is always published. -/
theorem c2_counterexample :
    STATE_COLLECT ≤ (sC2.buckets sC2.bucket_in).state ∧
    2 ≤ (sC2.buckets sC2.bucket_in).byteidx ∧
    (silenceISR sC2).bucket_nrused = sC2.bucket_nrused ∧
    (silenceISR sC2).bucket_in = sC2.bucket_in ∧
    ((silenceISR sC2).buckets sC2.bucket_in).state = STATE_RESET := by decide

/-- C2 (amended): the silence ISR publishes the bucket (`nrused` incremented,
`bucket_in` advanced) iff it carries at least 2 bytes, its state is at least
`STATE_COLLECT`, and the ring is not full; otherwise the counters stay and the
bucket is reset as a false alarm — in particular fewer than 2 bytes never
publish anything. -/
theorem c2_silence_publish (s : RingState) (hn : s.bucket_nrused < 255)
    (hi : s.bucket_in < 255) : c2Concl s := by
  unfold c2Concl
  by_cases h1 : (s.buckets s.bucket_in).state < STATE_COLLECT ∨
      (s.buckets s.bucket_in).byteidx < 2
  · have hs : silenceISR s = reset_input s := by
      unfold silenceISR
      rw [if_pos h1]
    rw [hs]
    unfold reset_input
    refine ⟨?_, ?_, ?_⟩
    · dsimp only
      constructor
      · intro h; omega
      · intro hC; rcases h1 with h | h <;> [exact absurd hC.1 (by omega);
          exact absurd hC.2.1 (by omega)]
    · intro hC; rcases h1 with h | h <;> [exact absurd hC.1 (by omega);
        exact absurd hC.2.1 (by omega)]
    · intro _
      dsimp only
      refine ⟨rfl, rfl, ?_⟩
      rw [if_pos rfl]
  · rw [not_or] at h1
    by_cases h2 : s.bucket_nrused + 1 = RCV_BUCKETS
    · have hs : silenceISR s = reset_input s := by
        unfold silenceISR
        rw [if_neg (not_or.mpr h1), if_pos h2]
      rw [hs]
      unfold reset_input
      refine ⟨?_, ?_, ?_⟩
      · dsimp only
        constructor
        · intro h; omega
        · intro hC; exact absurd h2 hC.2.2
      · intro hC; exact absurd h2 hC.2.2
      · intro _
        dsimp only
        refine ⟨rfl, rfl, ?_⟩
        rw [if_pos rfl]
    · have hs : silenceISR s = { s with
          bucket_nrused := (s.bucket_nrused + 1) % 256,
          bucket_in := (let bi := (s.bucket_in + 1) % 256
                        if bi = RCV_BUCKETS then 0 else bi) } := by
        unfold silenceISR
        rw [if_neg (not_or.mpr h1), if_neg h2]
      rw [hs]
      dsimp only
      have e1 : (s.bucket_nrused + 1) % 256 = s.bucket_nrused + 1 :=
        Nat.mod_eq_of_lt (by omega)
      have e2 : (s.bucket_in + 1) % 256 = s.bucket_in + 1 :=
        Nat.mod_eq_of_lt (by omega)
      rw [e1, e2]
      refine ⟨?_, ?_, ?_⟩
      · constructor
        · intro _; exact ⟨by omega, by omega, h2⟩
        · intro _; rfl
      · intro _; rfl
      · intro hC; exact absurd ⟨by omega, by omega, h2⟩ hC

theorem c2_witness : sC2w.bucket_nrused < 255 ∧ sC2w.bucket_in < 255 ∧ c2Concl sC2w :=
  ⟨by decide, by decide, c2_silence_publish sC2w (by decide) (by decide)⟩

theorem nrused_step {s s2 : RingState} (hstep : RfStep s s2)
    (h : s.bucket_nrused ≤ RCV_BUCKETS - 1) : s2.bucket_nrused ≤ RCV_BUCKETS - 1 := by
  cases hstep with
  | edge f => exact h
  | silence =>
    unfold silenceISR
    by_cases h1 : (s.buckets s.bucket_in).state < STATE_COLLECT ∨
        (s.buckets s.bucket_in).byteidx < 2
    · rw [if_pos h1]
      exact h
    · rw [if_neg h1]
      by_cases h2 : s.bucket_nrused + 1 = RCV_BUCKETS
      · rw [if_pos h2]
        exact h
      · rw [if_neg h2]
        have h4 : s.bucket_nrused ≤ 3 := h
        have h24 : s.bucket_nrused + 1 ≠ 4 := h2
        show (s.bucket_nrused + 1) % 256 ≤ 3
        omega
  | consume =>
    unfold rfAnalyzeRing
    by_cases h0 : s.bucket_nrused = 0
    · rw [if_pos h0]
      exact h
    · rw [if_neg h0]
      have h4 : s.bucket_nrused ≤ 3 := h
      show s.bucket_nrused - 1 ≤ 3
      omega

theorem ringBoundAux {s : RingState} (h : RingReachable s) :
    s.bucket_nrused ≤ RCV_BUCKETS - 1 := by
  induction h with
  | start s h0 =>
    rw [h0]
    exact Nat.zero_le _
  | step _hr hstep ih => exact nrused_step hstep ih

/-- C8: in every reachable state the ring occupancy counter satisfies
`0 ≤ bucket_nrused ≤ RCV_BUCKETS` (the producer increments only when the ring
is not full; the consumer decrements only after seeing it nonzero). -/
theorem c8_ring_occupancy (s : RingState) (h : RingReachable s) :
    0 ≤ s.bucket_nrused ∧ s.bucket_nrused ≤ RCV_BUCKETS := by
  have h1 := ringBoundAux h
  exact ⟨Nat.zero_le _, by omega⟩

theorem c8_witness :
    RingReachable ringStart ∧
    0 ≤ ringStart.bucket_nrused ∧ ringStart.bucket_nrused ≤ RCV_BUCKETS :=
  ⟨RingReachable.start ringStart rfl,
   c8_ring_occupancy ringStart (RingReachable.start ringStart rfl)⟩

theorem delbit_addbit (b : bucket_t) (bit : Nat) (hb : b.bitidx ≤ 7) (hm : b.byteidx < MAXMSG) :
    (delbit (addbit b bit).1).byteidx = b.byteidx ∧
    (delbit (addbit b bit).1).bitidx = b.bitidx ∧
    ∀ i < b.byteidx, (delbit (addbit b bit).1).data i = b.data i := by
  have hmax : MAXMSG = 12 := rfl
  unfold addbit
  rw [if_neg (by omega : ¬ MAXMSG ≤ b.byteidx)]
  by_cases h0 : b.bitidx = 0
  · rw [if_pos h0]
    dsimp only
    unfold delbit
    dsimp only
    rw [if_pos rfl]
    dsimp only
    refine ⟨by omega, by omega, ?_⟩
    intro i hi
    show updf (if bit ≠ 0 then updf b.data b.byteidx (b.data b.byteidx ||| 1 <<< b.bitidx)
         else b.data) (b.byteidx + 1) 0 i = b.data i
    unfold updf
    rw [if_neg (by omega : ¬ i = b.byteidx + 1)]
    by_cases hbit : bit ≠ 0
    · rw [if_pos hbit]
      rw [if_neg (by omega : ¬ i = b.byteidx)]
    · rw [if_neg hbit]
  · rw [if_neg h0]
    dsimp only
    unfold delbit
    dsimp only
    rw [if_neg (by omega : ¬ b.bitidx - 1 = 7)]
    dsimp only
    refine ⟨rfl, by omega, ?_⟩
    intro i hi
    show (if bit ≠ 0 then updf b.data b.byteidx (b.data b.byteidx ||| 1 <<< b.bitidx)
         else b.data) i = b.data i
    by_cases hbit : bit ≠ 0
    · rw [if_pos hbit]
      unfold updf
      rw [if_neg (by omega : ¬ i = b.byteidx)]
    · rw [if_neg hbit]

/-- C9 (amended): when the KS300 attempt fails, `delbit` restores the write
cursor (`byteidx`, `bitidx`) exactly, and all complete data bytes below the
cursor are untouched; the partial byte at the cursor (and the zero-filled byte
after a wrap) may differ, since `delbit` does not clear the appended 1-bit. -/
theorem c9_ks300_retraction (b : bucket_t) (hightime : Nat)
    (hb : b.bitidx ≤ 7) (hm : b.byteidx < MAXMSG)
    (hf : ks300_tag b hightime = 0) : c9Concl b hightime := by
  unfold c9Concl afterKS300
  rw [if_pos hf]
  unfold ks300TryBucket
  exact delbit_addbit b (wave_equals b.one hightime b.one.lowtime b.state) hb hm

theorem c9_witness :
    bC9.bitidx ≤ 7 ∧ bC9.byteidx < MAXMSG ∧ ks300_tag bC9 10 = 0 ∧ c9Concl bC9 10 :=
  ⟨by decide, by decide, by decide,
   c9_ks300_retraction bC9 10 (by decide) (by decide) (by decide)⟩

/-- C9 counterexample: the failed KS300 attempt on `bC9` leaves the appended
1-bit in `data[2]` (32 instead of 0), so the bucket's data contents are not
exactly as before the speculative append. -/
theorem c9_counterexample :
    ks300_tag bC9 10 = 0 ∧
    (afterKS300 bC9 10).data 2 = 32 ∧
    bC9.data 2 = 0 := by decide

/-- C10: evaluating `addbit` at the failing input `byteidx = MAXMSG - 1`,
`bitidx = 0` shows the zero-initialisation of the next byte stores to index
`MAXMSG`, one past the end of `data[0..MAXMSG-1]` (in `bucket_t` this overlays
the `zero` template); the overflow guard itself (`byteidx >= MAXMSG`) does
reset-and-leave-data-unchanged as the claim says. -/
theorem c10_addbit_oob :
    bC10.byteidx < MAXMSG ∧
    addbit_writes bC10 1 = [MAXMSG - 1, MAXMSG] ∧
    (addbit bC10 1).2 = false ∧
    (addbit bC10 1).1.data MAXMSG = 0 ∧
    bC10.data MAXMSG = 255 ∧
    (addbit { bC10 with byteidx := MAXMSG } 1).2 = true ∧
    (addbit { bC10 with byteidx := MAXMSG } 1).1.data MAXMSG = 255 := by decide

theorem cmpLoop_snd_false_iff (robuf obuf : Nat → Nat) :
    ∀ (n i : Nat), (cmpLoop robuf obuf n i).2 = false ↔
      ∀ k < n, robuf (i + k) = obuf (i + k) := by
  intro n
  induction n with
  | zero =>
    intro i
    simp [cmpLoop]
  | succ m ih =>
    intro i
    unfold cmpLoop
    by_cases h : robuf i ≠ obuf i
    · rw [if_pos h]
      constructor
      · intro hfalse
        exact absurd hfalse (by simp)
      · intro hall
        have h0 := hall 0 (by omega)
        rw [Nat.add_zero] at h0
        exact absurd h0 h
    · rw [if_neg h]
      push_neg at h
      rw [ih (i + 1)]
      constructor
      · intro hall k hk
        by_cases hk0 : k = 0
        · subst hk0
          rw [Nat.add_zero]
          exact h
        · have hh := hall (k - 1) (by omega)
          have e : i + 1 + (k - 1) = i + k := by omega
          rw [e] at hh
          exact hh
      · intro hall k hk
        have hh := hall (k + 1) (by omega)
        have e : i + (k + 1) = i + 1 + k := by omega
        rw [e] at hh
        exact hh

theorem cmpLoop_fst (robuf obuf : Nat → Nat) :
    ∀ (n i : Nat),
      ((cmpLoop robuf obuf n i).2 = false → (cmpLoop robuf obuf n i).1 = i + n) ∧
      ((cmpLoop robuf obuf n i).2 = true → (cmpLoop robuf obuf n i).1 < i + n) := by
  intro n
  induction n with
  | zero =>
    intro i
    simp [cmpLoop]
  | succ m ih =>
    intro i
    unfold cmpLoop
    by_cases h : robuf i ≠ obuf i
    · rw [if_pos h]
      constructor
      · intro hfalse
        exact absurd hfalse (by simp)
      · intro _
        show i < i + (m + 1)
        omega
    · rw [if_neg h]
      obtain ⟨ih1, ih2⟩ := ih (i + 1)
      constructor
      · intro hf
        rw [ih1 hf]
        omega
      · intro ht
        have := ih2 ht
        omega

theorem repeatCheckSave_isrep (tx oby : Nat) (obuf : Nat → Nat) (ticks : Nat)
    (g : DedupState) (hr : tx &&& REP_REPEATED = 0) :
    ((repeatCheckSave tx oby obuf ticks g).isrep = 1 ↔ isRepeatOf g oby obuf ticks) := by
  unfold repeatCheckSave
  rw [if_neg (not_not_intro hr)]
  dsimp only
  by_cases hro : g.roby = oby
  · rw [if_pos hro]
    by_cases hcm : (cmpLoop g.robuf obuf oby 0).2 = true
    · rw [if_pos hcm]
      dsimp only
      have hlt := (cmpLoop_fst g.robuf obuf oby 0).2 hcm
      rw [if_neg (by omega : ¬ ((cmpLoop g.robuf obuf oby 0).1 = oby ∧
          sub32 ticks g.reptime < REPTIME))]
      dsimp only
      constructor
      · intro h01; omega
      · intro hrep
        have hb := hrep.2.1
        have : (cmpLoop g.robuf obuf oby 0).2 = false := by
          rw [cmpLoop_snd_false_iff]
          intro k hk
          have := hb k hk
          simpa using this
        rw [this] at hcm
        exact absurd hcm (by simp)
    · rw [if_neg hcm]
      have hcf : (cmpLoop g.robuf obuf oby 0).2 = false := by
        revert hcm
        cases (cmpLoop g.robuf obuf oby 0).2 <;> simp
      have hfst := (cmpLoop_fst g.robuf obuf oby 0).1 hcf
      by_cases ht : sub32 ticks g.reptime < REPTIME
      · rw [if_pos (by omega : (cmpLoop g.robuf obuf oby 0).1 = oby ∧
            sub32 ticks g.reptime < REPTIME)]
        dsimp only
        constructor
        · intro _
          refine ⟨hro, ?_, ht⟩
          intro i hi
          have := (cmpLoop_snd_false_iff g.robuf obuf oby 0).1 hcf i hi
          simpa using this
        · intro _; rfl
      · rw [if_neg (by intro hc; exact ht hc.2)]
        dsimp only
        constructor
        · intro h01; omega
        · intro hrep; exact absurd hrep.2.2 ht
  · rw [if_neg hro]
    dsimp only
    constructor
    · intro h01; omega
    · intro hrep; exact absurd hrep.1 hro

theorem repeatCheckSave_save (tx oby : Nat) (obuf : Nat → Nat) (ticks : Nat)
    (g : DedupState) (hr : tx &&& REP_REPEATED = 0) :
    (repeatCheckSave tx oby obuf ticks g).roby = oby ∧
    (repeatCheckSave tx oby obuf ticks g).reptime = ticks ∧
    (∀ i, (repeatCheckSave tx oby obuf ticks g).robuf i =
       if i < oby then obuf i else g.robuf i) := by
  unfold repeatCheckSave
  rw [if_neg (not_not_intro hr)]
  dsimp only
  refine ⟨rfl, rfl, ?_⟩
  intro i
  by_cases hi : i < oby
  · rw [if_pos hi, if_pos hi]
  · rw [if_neg hi, if_neg hi]
    split_ifs <;> rfl

theorem repeatCheckSave_isnotrep (tx oby : Nat) (obuf : Nat → Nat) (ticks : Nat)
    (g : DedupState) (hr : tx &&& REP_REPEATED = 0)
    (heq : ∀ i < oby, g.robuf i = obuf i) :
    (repeatCheckSave tx oby obuf ticks g).isnotrep = g.isnotrep := by
  unfold repeatCheckSave
  rw [if_neg (not_not_intro hr)]
  dsimp only
  have hcf : (cmpLoop g.robuf obuf oby 0).2 = false := by
    rw [cmpLoop_snd_false_iff]
    intro k hk
    simpa using heq k hk
  rw [hcf]
  rw [if_neg Bool.false_ne_true]
  split_ifs <;> rfl

theorem repeatCheckSave_packageOK (tx oby : Nat) (obuf : Nat → Nat) (ticks : Nat)
    (g : DedupState) :
    (repeatCheckSave tx oby obuf ticks g).packageOK = 0 := by
  unfold repeatCheckSave
  dsimp only
  split_ifs <;> rfl

theorem dedupStep_itc (tx dt oby : Nat) (obuf : Nat → Nat) (ticks : Nat) (g : DedupState)
    (hk : tx &&& REP_KNOWN ≠ 0) (hdt : dt = TYPE_IT ∨ dt = TYPE_TCM97001) :
    dedupStep tx dt oby obuf ticks g =
      checkForRepeatedPackage dt (repeatCheckSave tx oby obuf ticks g) := by
  have hdt0 : dt ≠ 0 := by rcases hdt with h | h <;> (subst h; decide)
  have hdtf : dt ≠ TYPE_FHT := by rcases hdt with h | h <;> (subst h; decide)
  unfold dedupStep
  rw [if_neg (by intro hor; rcases hor with h | h; exact hdt0 h; exact hk h)]
  dsimp only
  rw [if_neg (by intro hc; exact hdtf hc.1)]

/-- C5: when `REP_KNOWN` is set and `REP_REPEATED` is clear, the compare/save
block flags a newly decoded payload as a repeat iff its length and all its
bytes match `robuf` and `(ticks - reptime) < REPTIME` (uint32); afterwards
`robuf`/`roby` and `reptime` are always updated to the new payload and the
current tick count. -/
theorem c5_repeat_flag (tx oby : Nat) (obuf : Nat → Nat) (ticks : Nat) (g : DedupState)
    (_hk : tx &&& REP_KNOWN ≠ 0) (hr : tx &&& REP_REPEATED = 0) :
    c5Concl tx oby obuf ticks g := by
  unfold c5Concl
  obtain ⟨h1, h2, h3⟩ := repeatCheckSave_save tx oby obuf ticks g hr
  refine ⟨repeatCheckSave_isrep tx oby obuf ticks g hr, h1, ?_, h2⟩
  intro i hi
  rw [h3 i, if_pos hi]

theorem c5_witness :
    (1 &&& REP_KNOWN ≠ 0) ∧ (1 &&& REP_REPEATED = 0) ∧
    c5Concl 1 2 (fun _ => 7) 100 gC5 :=
  ⟨by decide, by decide, c5_repeat_flag 1 2 (fun _ => 7) 100 gC5 (by decide) (by decide)⟩

/-- C4 counterexample: a byte-identical second arrival within the REPTIME
window whose first arrival was not emitted, yet the second is not emitted
either (`isnotrep` was still set from an earlier emission, and the
different-length first arrival never cleared it). -/
theorem c4_counterexample :
    (∀ i < 3, (dedupStep 1 TYPE_IT 3 obufC4 50 gC4).robuf i = obufC4 i) ∧
    sub32 60 50 < REPTIME ∧
    (dedupStep 1 TYPE_IT 3 obufC4 50 gC4).packageOK = 0 ∧
    (dedupStep 1 TYPE_IT 3 obufC4 60 (dedupStep 1 TYPE_IT 3 obufC4 50 gC4)).packageOK = 0 := by
  decide

/-- C4 (amended): for IT/TCM97001 under `REP_KNOWN` with `REP_REPEATED`
clear, a frame is emitted only after being confirmed as a repeat: an arrival
that is not a repeat of the stored state is not emitted; a second
byte-identical arrival within the REPTIME window is emitted exactly once —
provided `isnotrep` is clear when it is processed — and a third identical
arrival is suppressed again; `packageOK` is set only when `isrep = 1` and
`isnotrep = 0`. -/
theorem c4_it_repeat_emission (tx dt oby : Nat) (obuf : Nat → Nat) (t1 t2 t3 : Nat)
    (g0 : DedupState)
    (hk : tx &&& REP_KNOWN ≠ 0) (hr : tx &&& REP_REPEATED = 0)
    (hdt : dt = TYPE_IT ∨ dt = TYPE_TCM97001)
    (hfirst : ¬ isRepeatOf g0 oby obuf t1)
    (hclear : (dedupStep tx dt oby obuf t1 g0).isnotrep = 0)
    (h12 : sub32 t2 t1 < REPTIME) (h23 : sub32 t3 t2 < REPTIME) :
    c4Concl tx dt oby obuf t1 t2 t3 g0 ∧
    (∀ (t : Nat) (g : DedupState),
      (dedupStep tx dt oby obuf t g).packageOK = 1 →
      (repeatCheckSave tx oby obuf t g).isrep = 1 ∧
      (repeatCheckSave tx oby obuf t g).isnotrep = 0) := by
  have hdstep : ∀ (t : Nat) (g : DedupState), dedupStep tx dt oby obuf t g =
      checkForRepeatedPackage dt (repeatCheckSave tx oby obuf t g) :=
    fun t g => dedupStep_itc tx dt oby obuf t g hk hdt
  have hchk : ∀ g : DedupState, checkForRepeatedPackage dt g =
      if g.isrep = 1 ∧ g.isnotrep = 0 then { g with isnotrep := 1, packageOK := 1 }
      else if g.isrep = 1 then { g with packageOK := 0 } else g := by
    intro g
    unfold checkForRepeatedPackage
    rw [if_pos hdt]
  obtain ⟨hs1roby, hs1rep, hs1robuf⟩ := repeatCheckSave_save tx oby obuf t1 g0 hr
  have hfirstiff := repeatCheckSave_isrep tx oby obuf t1 g0 hr
  have hpk1 := repeatCheckSave_packageOK tx oby obuf t1 g0
  set r1 := repeatCheckSave tx oby obuf t1 g0 with hr1
  have hr1rep : ¬ r1.isrep = 1 := fun h => hfirst (hfirstiff.mp h)
  have hg1 : dedupStep tx dt oby obuf t1 g0 = r1 := by
    rw [hdstep, hchk]
    rw [if_neg (fun hc => hr1rep hc.1), if_neg hr1rep]
  rw [hg1] at hclear
  have hr1bytes : ∀ i < oby, r1.robuf i = obuf i := by
    intro i hi
    rw [hs1robuf i, if_pos hi]
  have hrepeat2 : isRepeatOf r1 oby obuf t2 := by
    refine ⟨hs1roby, hr1bytes, ?_⟩
    rw [hs1rep]
    exact h12
  obtain ⟨hs2roby, hs2rep, hs2robuf⟩ := repeatCheckSave_save tx oby obuf t2 r1 hr
  have hsecondiff := repeatCheckSave_isrep tx oby obuf t2 r1 hr
  have hnr2 := repeatCheckSave_isnotrep tx oby obuf t2 r1 hr hr1bytes
  set r2 := repeatCheckSave tx oby obuf t2 r1 with hr2
  have hr2rep : r2.isrep = 1 := hsecondiff.mpr hrepeat2
  have hr2notrep : r2.isnotrep = 0 := by rw [hnr2]; exact hclear
  have hg2 : dedupStep tx dt oby obuf t2 r1 = { r2 with isnotrep := 1, packageOK := 1 } := by
    rw [hdstep, hchk]
    rw [if_pos ⟨hr2rep, hr2notrep⟩]
  have hr2bytes : ∀ i < oby, ({ r2 with isnotrep := 1, packageOK := 1 } : DedupState).robuf i
      = obuf i := by
    intro i hi
    show r2.robuf i = obuf i
    rw [hs2robuf i, if_pos hi]
  have hrepeat3 : isRepeatOf { r2 with isnotrep := 1, packageOK := 1 } oby obuf t3 := by
    refine ⟨hs2roby, hr2bytes, ?_⟩
    show sub32 t3 r2.reptime < REPTIME
    rw [hs2rep]
    exact h23
  have hthirdiff := repeatCheckSave_isrep tx oby obuf t3
    { r2 with isnotrep := 1, packageOK := 1 } hr
  have hnr3 := repeatCheckSave_isnotrep tx oby obuf t3
    { r2 with isnotrep := 1, packageOK := 1 } hr hr2bytes
  set r3 := repeatCheckSave tx oby obuf t3 { r2 with isnotrep := 1, packageOK := 1 } with hr3
  have hr3rep : r3.isrep = 1 := hthirdiff.mpr hrepeat3
  have hr3notrep : r3.isnotrep = 1 := by rw [hnr3]
  have hg3 : (dedupStep tx dt oby obuf t3 { r2 with isnotrep := 1, packageOK := 1 }).packageOK
      = 0 := by
    rw [hdstep, hchk]
    rw [if_neg (fun hc => by rw [hr3notrep] at hc; exact absurd hc.2 (by omega))]
    rw [if_pos hr3rep]
  constructor
  · unfold c4Concl
    refine ⟨?_, ?_, ?_⟩
    · rw [hg1]
      exact hpk1
    · rw [hg1, hg2]
    · rw [hg1, hg2]
      exact hg3
  · intro t g hpk
    rw [hdstep, hchk] at hpk
    by_cases hc : (repeatCheckSave tx oby obuf t g).isrep = 1 ∧
        (repeatCheckSave tx oby obuf t g).isnotrep = 0
    · exact hc
    · rw [if_neg hc] at hpk
      by_cases hc2 : (repeatCheckSave tx oby obuf t g).isrep = 1
      · rw [if_pos hc2] at hpk
        simp at hpk
      · rw [if_neg hc2] at hpk
        rw [repeatCheckSave_packageOK] at hpk
        exact absurd hpk (by omega)

theorem c4_witness :
    (1 &&& REP_KNOWN ≠ 0) ∧ (1 &&& REP_REPEATED = 0) ∧
    ¬ isRepeatOf gC4w 3 obufC4 50 ∧
    (dedupStep 1 TYPE_IT 3 obufC4 50 gC4w).isnotrep = 0 ∧
    sub32 60 50 < REPTIME ∧ sub32 70 60 < REPTIME ∧
    c4Concl 1 TYPE_IT 3 obufC4 50 60 70 gC4w :=
  ⟨by decide, by decide, by decide, by decide, by decide, by decide,
   (c4_it_repeat_emission 1 TYPE_IT 3 obufC4 50 60 70 gC4w (by decide) (by decide)
     (Or.inl rfl) (by decide) (by decide) (by decide) (by decide)).1⟩
